import Mathlib

/-!
# Run orchestration of `cmd/sling/sling_logic.go`

A shallow embedding of `runReplication`, the iteration loop of `processRun`
and `parsePayload`.  Global mutable process state (the interruption flag, the
file system, the connections, the clock) is an explicit world `σ` that is
threaded through every call that can take time or touch the outside.  The
collaborators that live outside `sling_logic.go` are the fields of `Deps`.
-/

namespace Sling

/-! ## Errors -/

/-- Go `error` values as `g.Error` builds them. -/
inductive Err where
  /-- Go `g.Error("text")`. -/
  | msg (text : String)
  /-- Go `g.Error(err, "text")`: an error wrapped with context. -/
  | wrap (inner : Err) (text : String)
  /-- the error `ErrorGroup.Err()` builds from the captured errors. -/
  | group (members : List Err)

/-- The `g.ErrorGroup` of library `flarco/g`: the list of captured errors. -/
structure ErrorGroup where
  Errors : List Err := []

/-- Go `eG.Capture(err, name)`: a non-nil error is appended to `Errors`. -/
def ErrorGroup.Capture (eG : ErrorGroup) (err : Option Err) : ErrorGroup :=
  match err with
  | some e => { Errors := eG.Errors ++ [e] }
  | none => eG

/-- Go `eG.Err()`: nil when nothing was captured, else one error for the group. -/
def ErrorGroup.Err (eG : ErrorGroup) : Option Err :=
  if eG.Errors.length = 0 then none else some (.group eG.Errors)

/-! ## Configuration data -/

/-- A loosely typed scalar of an options payload. -/
inductive Val where
  | null
  | bool (b : Bool)
  | num (n : Int)
  | str (s : String)
  | other (raw : String)
deriving DecidableEq, Repr

/-- A Go `map[string]any`; `none` is the nil map. -/
abbrev GoMap := Option (List (String × Val))

/-- The options blocks `sling.SourceOptions` / `sling.TargetOptions`
(declared in `core/sling`), kept as their field/value listing. -/
abbrev Options := List (String × Val)

/-- The `sling.ReplicationStreamConfig` fields that `runReplication` reads. -/
structure ReplicationStreamConfig where
  Mode : String := ""
  Object : String := ""
  Select : List String := []
  PrimaryKeyI : List String := []
  UpdateKey : String := ""
  SQL : String := ""
  SourceOptions : Option Options := none
  TargetOptions : Option Options := none
  Disabled : Bool := false
deriving DecidableEq, Repr

/-- The `sling.ReplicationConfig` fields that `runReplication` reads.
`Streams` is the map from stream name to a stream pointer (`none`: nil). -/
structure ReplicationConfig where
  Source : String := ""
  Target : String := ""
  Streams : List (String × Option ReplicationStreamConfig) := []
  Env : List (String × Val) := []
deriving DecidableEq, Repr

/-- The `sling.Source` part of a run configuration. -/
structure Source where
  Conn : String := ""
  Stream : String := ""
  Select : List String := []
  PrimaryKeyI : List String := []
  UpdateKey : String := ""
  Options : Option Options := none
deriving DecidableEq, Repr

/-- The `sling.Target` part of a run configuration. -/
structure Target where
  Conn : String := ""
  Object : String := ""
  Options : Option Options := none
deriving DecidableEq, Repr

/-- The `Options` block of `sling.Config`, as `processRun` sets it. -/
structure ConfigOptions where
  StdIn : Bool := false
  StdOut : Bool := false
  Debug : Bool := false
deriving DecidableEq, Repr

/-- The `sling.Config` handed to `runTask`. -/
structure Config where
  Source : Source := {}
  Target : Target := {}
  Mode : String := ""
  ReplicationMode : Bool := false
  Env : List (String × String) := []
  StreamName : String := ""
  Options : ConfigOptions := {}
deriving DecidableEq, Repr

/-- Lines written by `g.Info` / `g.Debug` in `runReplication`. -/
inductive LogLine where
  /-- the line "Sling Replication [%d streams] | %s -> %s". -/
  | header (streamCnt : Nat) (source target : String)
  /-- the line "skipping stream %s since it is not selected". -/
  | skipNotSelected (name : String)
  /-- the line "[%d / %d] skipping stream %s since it is disabled". -/
  | skipDisabled (counter streamCnt : Nat) (name : String)
  /-- the line "[%d / %d] running stream %s". -/
  | running (counter streamCnt : Nat) (name : String)
  /-- the line "Sling Replication Completed ... | %d Successes | %d Failures". -/
  | completed (successes failures : Nat)
deriving DecidableEq, Repr

/-! ## Collaborators -/

/-- Everything `sling_logic.go` calls but does not define.  `σ` is the state
of the outside world; a call that can take time returns the world after it. -/
structure Deps (σ : Type) where
  /-- the package-level flag `interrupted`, as read in world `w`. -/
  interrupted : σ → Bool
  /-- Go `sling.LoadReplicationConfig(cfgPath)`. -/
  loadReplicationConfig : σ → String → σ × Except Err ReplicationConfig
  /-- Go `replication.ProcessWildcards()`: the spec after expansion, or an error. -/
  processWildcards : σ → ReplicationConfig → σ × Except Err ReplicationConfig
  /-- Go `replication.HasStream(v)`. -/
  hasStream : ReplicationConfig → String → Bool
  /-- Go `replication.StreamsOrdered()`. -/
  streamsOrdered : ReplicationConfig → List String
  /-- Go `sling.SetStreamDefaults(stream, replication)`: the stream after the
  defaults were merged into it. -/
  setStreamDefaults : ReplicationStreamConfig → ReplicationConfig → ReplicationStreamConfig
  /-- Go `stream.PrimaryKey()`. -/
  primaryKey : ReplicationStreamConfig → List String
  /-- Go `g.ToMapString(replication.Env)`. -/
  toMapString : List (String × Val) → List (String × String)
  /-- Go `g.Unmarshal(g.Marshal(options), &target)`: the serialise/deserialise
  round trip that fills an options pointer of the new `Config`. -/
  roundTrip : Option Options → Option Options
  /-- the test of one filter of `g.IsMatched` against a name. -/
  matchOne : String → String → Bool
  /-- Go `runTask(cfg, replication)`: the transfer of one resolved configuration;
  its body only drives the transfer engine (`Prepare`, `NewTask`,
  `StoreInsert`, `Execute`) and the telemetry.  It returns the world after the
  transfer, the configuration as the engine left it, and the error. -/
  runTask : σ → Config → Option ReplicationConfig → σ × Config × Option Err
  /-- Go `cfg.Unmarshal(taskCfgStr)`. -/
  unmarshal : σ → Config → String → σ × Except Err Config
  /-- Go `time.Sleep(1 * time.Second)`: the world one second later. -/
  sleep : σ → σ

/-- Modelled from the spec: `g.IsMatched(filters, name)` of library `flarco/g`
(not under `src/`) holds when the name matches at least one of the filters;
the single-filter test is `Deps.matchOne`. -/
def IsMatched {σ : Type} (d : Deps σ) (filters : List String) (name : String) : Bool :=
  filters.any (fun f => d.matchOne f name)

/-! ## `runReplication` -/

/-- One call of `runTask` made by the stream loop: the stream name, the
configuration handed over, and the error that came back. -/
structure Invocation where
  name : String
  cfg : Config
  err : Option Err

/-- The variables of the stream loop of `runReplication`, the world, and a
record of what the loop did (`reached`, `trace`, `log`). -/
structure LoopState (σ : Type) where
  world : σ
  replication : ReplicationConfig
  eG : ErrorGroup := {}
  succcess : Nat := 0
  errors : List (Option Err) := []
  counter : Nat := 0
  /-- streams that passed the selection test, with their merged settings. -/
  reached : List (String × ReplicationStreamConfig) := []
  /-- the calls of `runTask`, in execution order. -/
  trace : List Invocation := []
  log : List LogLine := []

/-- How the stream loop was left. -/
inductive LoopExit where
  /-- the range over `streamsOrdered` was exhausted. -/
  | done
  /-- Go `break` at the interruption checkpoint. -/
  | brk
  /-- Go `return` from inside the loop. -/
  | ret (e : Err)

/-- Go `replication.Streams[name]`: nil for a missing key or a nil entry. -/
def lookupStream (replication : ReplicationConfig) (name : String) :
    Option ReplicationStreamConfig :=
  (replication.Streams.lookup name).join

/-- The effect of `SetStreamDefaults` writing through the stream pointer: the
entry of `name` now holds the merged stream. -/
def storeStream (replication : ReplicationConfig) (name : String)
    (stream : ReplicationStreamConfig) : ReplicationConfig :=
  { replication with
    Streams := replication.Streams.map
      (fun kv => if kv.1 == name then (kv.1, some stream) else kv) }

/-- The `sling.Config` literal of lines 384-408, options and SQL override
included. -/
def buildConfig {σ : Type} (d : Deps σ) (replication : ReplicationConfig) (name : String)
    (stream : ReplicationStreamConfig) : Config :=
  { Source :=
      { Conn := replication.Source
        Stream := if stream.SQL ≠ "" then stream.SQL else name
        Select := stream.Select
        PrimaryKeyI := d.primaryKey stream
        UpdateKey := stream.UpdateKey
        Options := d.roundTrip stream.SourceOptions }
    Target :=
      { Conn := replication.Target
        Object := stream.Object
        Options := d.roundTrip stream.TargetOptions }
    Mode := stream.Mode
    ReplicationMode := true
    Env := d.toMapString replication.Env
    StreamName := name }

/-- The error of line 381. -/
def missingObject : Err :=
  .msg "need to specify `object`. Please see https://docs.slingdata.io/sling-cli for help."

/-- The body of the loop `for i, name := range streamsOrdered` of
`runReplication` (lines 364-427) for the name at index `i`: the state after
the body, and how the loop is left (`none`: on to the next name). -/
def streamStep {σ : Type} (d : Deps σ) (selectStreams : List String) (streamCnt : Nat)
    (i : Nat) (name : String) (st : LoopState σ) : LoopState σ × Option LoopExit :=
  if d.interrupted st.world then (st, some .brk)
  else if 0 < selectStreams.length && !IsMatched d selectStreams name then
    ({ st with log := st.log ++ [.skipNotSelected name] }, none)
  else
    let counter := st.counter + 1
    let ptr := lookupStream st.replication name
    let stream := d.setStreamDefaults (ptr.getD {}) st.replication
    let replication :=
      match ptr with
      | some _ => storeStream st.replication name stream
      | none => st.replication
    let st1 : LoopState σ :=
      { st with counter := counter, replication := replication,
                reached := st.reached ++ [(name, stream)] }
    if stream.Object = "" then (st1, some (.ret missingObject))
    else
      let cfg := buildConfig d replication name stream
      if stream.Disabled then
        ({ st1 with log := st1.log ++ [.skipDisabled counter streamCnt name] }, none)
      else
        let r := d.runTask st1.world cfg (some replication)
        let st2 : LoopState σ :=
          { st1 with world := r.1,
                     log := st1.log ++ [.running counter streamCnt name],
                     trace := st1.trace ++ [⟨name, cfg, r.2.2⟩] }
        match r.2.2 with
        | some err =>
          ({ st2 with errors := st2.errors.set i (some (.wrap err ("error for stream " ++ name))),
                      eG := st2.eG.Capture (some err) }, none)
        | none => ({ st2 with succcess := st2.succcess + 1 }, none)

/-- The loop `for i, name := range streamsOrdered` of `runReplication`
(lines 363-428), started at index `i` on the names still to visit. -/
def replicationLoop {σ : Type} (d : Deps σ) (selectStreams : List String) (streamCnt : Nat) :
    Nat → List String → LoopState σ → LoopState σ × LoopExit
  | _, [], st => (st, .done)
  | i, name :: rest, st =>
    match streamStep d selectStreams streamCnt i name st with
    | (st1, some exit) => (st1, exit)
    | (st1, none) => replicationLoop d selectStreams streamCnt (i + 1) rest st1

/-- The selection test of line 368: the name is not skipped as unselected. -/
def passesSelection {σ : Type} (d : Deps σ) (selectStreams : List String) (name : String) :
    Bool :=
  !(0 < selectStreams.length && !IsMatched d selectStreams name)

/-- What a call of `runReplication` returned and did. -/
structure RunResult (σ : Type) where
  /-- the returned error. -/
  err : Option Err
  world : σ
  /-- the resolved order the loop walked (empty when the spec did not load). -/
  streamsOrdered : List String := []
  /-- the value of `succcess` when the function returned. -/
  succcess : Nat := 0
  /-- the value of `eG.Errors` when the function returned. -/
  failures : List Err := []
  reached : List (String × ReplicationStreamConfig) := []
  trace : List Invocation := []
  log : List LogLine := []

/-- The selectors that survive the clean-up of lines 350-352. -/
def cleanSelectStreams {σ : Type} (d : Deps σ) (replication : ReplicationConfig)
    (selectStreams : List String) : List String :=
  selectStreams.filter (fun v => d.hasStream replication v)

/-- The value of `streamCnt` (line 354) for the cleaned selectors. -/
def streamCount (replication : ReplicationConfig) (selectStreams : List String) : Nat :=
  if 0 < selectStreams.length then selectStreams.length else replication.Streams.length

/-- The loop variables as lines 354-362 initialise them. -/
def initLoopState {σ : Type} (d : Deps σ) (w : σ) (replication : ReplicationConfig)
    (selectStreams : List String) : LoopState σ :=
  { world := w, replication := replication,
    errors := List.replicate (d.streamsOrdered replication).length none,
    log := [.header (streamCount replication selectStreams)
              replication.Source replication.Target] }

/-- Lines 430-443, or the early return of line 381: the result of
`runReplication` from the way the loop was left. -/
def finishRun {σ : Type} (streamsOrdered : List String) (out : LoopState σ × LoopExit) :
    RunResult σ :=
  let st := out.1
  match out.2 with
  | .ret e =>
    { err := some e, world := st.world, streamsOrdered := streamsOrdered,
      succcess := st.succcess, failures := st.eG.Errors, reached := st.reached,
      trace := st.trace, log := st.log }
  | _ =>
    { err := st.eG.Err, world := st.world, streamsOrdered := streamsOrdered,
      succcess := st.succcess, failures := st.eG.Errors, reached := st.reached,
      trace := st.trace,
      log := st.log ++ [.completed st.succcess st.eG.Errors.length] }

/-- The part of `runReplication` after the spec is loaded and expanded
(lines 349-443). -/
def runLoaded {σ : Type} (d : Deps σ) (w : σ) (replication : ReplicationConfig)
    (selectStreams : List String) : RunResult σ :=
  let selectStreams := cleanSelectStreams d replication selectStreams
  finishRun (d.streamsOrdered replication)
    (replicationLoop d selectStreams (streamCount replication selectStreams) 0
      (d.streamsOrdered replication) (initLoopState d w replication selectStreams))

/-- The function `runReplication(cfgPath, selectStreams...)` (lines 336-444). -/
def runReplication {σ : Type} (d : Deps σ) (w : σ) (cfgPath : String)
    (selectStreams : List String) : RunResult σ :=
  match d.loadReplicationConfig w cfgPath with
  | (w1, .error e) => { err := some (.wrap e "Error parsing replication config"), world := w1 }
  | (w1, .ok replication) =>
    match d.processWildcards w1 replication with
    | (w2, .error e) =>
      { err := some (.wrap e "could not process streams using wildcard"), world := w2 }
    | (w2, .ok replication) => runLoaded d w2 replication selectStreams

/-! ## The iteration loop of `processRun` -/

/-- What one iteration of the loop of `processRun` ran. -/
inductive Iteration (σ : Type) where
  /-- the call `runReplication(replicationCfgPath, selectStreams...)`. -/
  | replication (r : RunResult σ)
  /-- the call `runTask(cfg, nil)`, with the configuration handed over. -/
  | task (cfg : Config) (err : Option Err)
  /-- Go `cfg.Unmarshal(taskCfgStr)` failed, nothing was run. -/
  | unmarshalFailed (err : Err)

/-- The variables of the loop of `processRun`, the world, and a record of the
iterations started and of the one-second sleeps taken. -/
structure ProcessState (σ : Type) where
  world : σ
  cfg : Config
  itNumber : Int := 1
  iterations : List (Iteration σ) := []
  sleeps : Nat := 0

/-- What the loop of `processRun` returned and did.  `returned` is false when
the loop was still running after the allotted number of iterations. -/
structure ProcessResult (σ : Type) where
  returned : Bool
  ok : Bool := true
  err : Option Err := none
  final : ProcessState σ

/-- The body of one iteration up to the `iterate` test (lines 191-210): the
state after the run, and the error `processRun` returns if the run failed. -/
def runOnce {σ : Type} (d : Deps σ) (replicationCfgPath taskCfgStr : String)
    (selectStreams : List String) (st : ProcessState σ) : ProcessState σ × Option Err :=
  if replicationCfgPath ≠ "" then
    let r := runReplication d st.world replicationCfgPath selectStreams
    let st1 := { st with world := r.world, iterations := st.iterations ++ [.replication r] }
    match r.err with
    | some e =>
      (st1, some (.wrap e
        "failure running replication (see docs @ https://docs.slingdata.io/sling-cli)"))
    | none => (st1, none)
  else
    let u : σ × Except Err Config :=
      if taskCfgStr ≠ "" then d.unmarshal st.world st.cfg taskCfgStr else (st.world, .ok st.cfg)
    match u.2 with
    | .error e =>
      ({ st with world := u.1, iterations := st.iterations ++ [.unmarshalFailed e] },
        some (.wrap e
          "could not parse task configuration (see docs @ https://docs.slingdata.io/sling-cli)"))
    | .ok cfg =>
      let r := d.runTask u.1 cfg none
      let st1 := { st with world := r.1, cfg := r.2.1,
                           iterations := st.iterations ++ [.task cfg r.2.2] }
      match r.2.2 with
      | some e =>
        (st1, some (.wrap e
          "failure running task (see docs @ https://docs.slingdata.io/sling-cli)"))
      | none => (st1, none)

/-- The loop `for { ... }` of `processRun` (lines 190-221), run for at most
`fuel` iterations.  `iterate` is `-1` for "infinite". -/
def processRunLoop {σ : Type} (d : Deps σ) (replicationCfgPath taskCfgStr : String)
    (selectStreams : List String) (iterate : Int) :
    Nat → ProcessState σ → ProcessResult σ
  | 0, st => { returned := false, final := st }
  | fuel + 1, st =>
    let out := runOnce d replicationCfgPath taskCfgStr selectStreams st
    match out.2 with
    | some e => { returned := true, err := some e, final := out.1 }
    | none =>
      if 0 < iterate ∧ iterate ≤ out.1.itNumber then
        { returned := true, final := out.1 }
      else
        processRunLoop d replicationCfgPath taskCfgStr selectStreams iterate fuel
          { out.1 with itNumber := out.1.itNumber + 1,
                       world := d.sleep out.1.world,
                       sleeps := out.1.sleeps + 1 }

/-- The number of calls of `runTask` made during one iteration. -/
def Iteration.transfers {σ : Type} : Iteration σ → Nat
  | .replication r => r.trace.length
  | .task _ _ => 1
  | .unmarshalFailed _ => 0

/-- The iteration is a run, of a replication or of a task, that returned no
error. -/
def Iteration.ranOk {σ : Type} : Iteration σ → Bool
  | .replication r => r.err.isNone
  | .task _ err => err.isNone
  | .unmarshalFailed _ => false

/-- One run as the contract of `processRun` words it, "either a single ad-hoc
run or a full replication run": from the world `w` and the task configuration
`cfg`, the call `runReplication(replicationCfgPath, selectStreams...)` when a
replication is given, else the call `runTask(cfg, nil)` on the configuration
parsed from `taskCfgStr` when one is given.  The result is the record of the
run, the world after it and the task configuration after it. -/
def specRun {σ : Type} (d : Deps σ) (replicationCfgPath taskCfgStr : String)
    (selectStreams : List String) (w : σ) (cfg : Config) : Iteration σ × σ × Config :=
  if replicationCfgPath ≠ "" then
    (.replication (runReplication d w replicationCfgPath selectStreams),
      (runReplication d w replicationCfgPath selectStreams).world, cfg)
  else if taskCfgStr ≠ "" then
    match (d.unmarshal w cfg taskCfgStr).2 with
    | .error e => (.unmarshalFailed e, (d.unmarshal w cfg taskCfgStr).1, cfg)
    | .ok c =>
      (.task c (d.runTask (d.unmarshal w cfg taskCfgStr).1 c none).2.2,
        (d.runTask (d.unmarshal w cfg taskCfgStr).1 c none).1,
        (d.runTask (d.unmarshal w cfg taskCfgStr).1 c none).2.1)
  else
    (.task cfg (d.runTask w cfg none).2.2, (d.runTask w cfg none).1, (d.runTask w cfg none).2.1)

/-- The contract's "a finite positive count runs that many times": `n` runs
one after the other, each from the world the one before left, with one sleep
between two runs. -/
def specRuns {σ : Type} (d : Deps σ) (replicationCfgPath taskCfgStr : String)
    (selectStreams : List String) : Nat → σ → Config → List (Iteration σ)
  | 0, _, _ => []
  | n + 1, w, cfg =>
    (specRun d replicationCfgPath taskCfgStr selectStreams w cfg).1 ::
      specRuns d replicationCfgPath taskCfgStr selectStreams n
        (d.sleep (specRun d replicationCfgPath taskCfgStr selectStreams w cfg).2.1)
        (specRun d replicationCfgPath taskCfgStr selectStreams w cfg).2.2

/-- The world after `n` runs with a sleep between two of them. -/
def specWorld {σ : Type} (d : Deps σ) (replicationCfgPath taskCfgStr : String)
    (selectStreams : List String) : Nat → σ → Config → σ
  | 0, w, _ => w
  | 1, w, cfg => (specRun d replicationCfgPath taskCfgStr selectStreams w cfg).2.1
  | n + 2, w, cfg =>
    specWorld d replicationCfgPath taskCfgStr selectStreams (n + 1)
      (d.sleep (specRun d replicationCfgPath taskCfgStr selectStreams w cfg).2.1)
      (specRun d replicationCfgPath taskCfgStr selectStreams w cfg).2.2

/-! ## `parsePayload` -/

/-- Go's `unicode.IsSpace`. -/
def isSpace (c : Char) : Bool :=
  let n := c.toNat
  (9 ≤ n && n ≤ 13) || n == 0x20 || n == 0x85 || n == 0xA0 || n == 0x1680 ||
  (0x2000 ≤ n && n ≤ 0x200A) || n == 0x2028 || n == 0x2029 || n == 0x202F ||
  n == 0x205F || n == 0x3000

/-- Go's `strings.TrimSpace`. -/
def trimSpace (s : String) : String :=
  String.mk ((s.toList.dropWhile isSpace).reverse.dropWhile isSpace).reverse

/-- The two parsers `parsePayload` calls. -/
structure Parsers where
  /-- Go `g.UnmarshalMap(payload)`: the strict JSON parse. -/
  unmarshalMap : String → GoMap × Option Err
  /-- Go `yaml.Unmarshal([]byte(payload), &options)`: the YAML parse into the
  current value of `options`. -/
  yamlUnmarshal : String → GoMap → GoMap × Option Err

/-- The keys of a Go map (none for the nil map). -/
def GoMap.keys (m : GoMap) : List String :=
  (m.getD []).map Prod.fst

/-- Go `strings.Contains(k, ":")`. -/
def hasColon (k : String) : Bool :=
  k.toList.contains ':'

/-- The function `parsePayload(payload, validate)` (lines 560-588).  The range
over the map meets the keys in the order of the listing. -/
def parsePayload (p : Parsers) (payload : String) (validate : Bool) : GoMap × Option Err :=
  let payload := trimSpace payload
  if payload = "" then (some [], none)
  else
    let j := p.unmarshalMap payload
    match j.2 with
    | none => (j.1, none)
    | some _ =>
      let y := p.yamlUnmarshal payload j.1
      match y.2 with
      | some e => (y.1, some (.wrap e "could not parse options"))
      | none =>
        if validate then
          match (GoMap.keys y.1).find? hasColon with
          | some k =>
            (y.1, some (.msg ("invalid key: " ++ k ++ ". Try adding a space after the colon.")))
          | none => (y.1, none)
        else (y.1, none)

/-! ## The flags of `processRun` -/

/-- What the flag handling of `processRun` (lines 57-168) calls but does not
define. -/
structure FlagDeps where
  /-- Go `cast.ToString(v)`. -/
  castToString : Val → String
  /-- Go `cast.ToInt(v)`. -/
  castToInt : Val → Int
  /-- Go `cast.ToBool(v)`. -/
  castToBool : Val → Bool
  /-- Go `g.JSONConvert(options, &cfg.Source.Options)`, the same for the
  target: the options block that the call leaves behind, or an error. -/
  convertOptions : GoMap → Option Options → Except Err (Option Options)
  /-- Go `g.JSONConvert(env, &cfg.Env)`. -/
  convertEnv : GoMap → List (String × String) → Except Err (List (String × String))
  /-- the parsers behind `parsePayload`. -/
  parsers : Parsers
  /-- whether standard input is piped (lines 59-62). -/
  stdinPiped : Bool

/-- The local variables of `processRun` that the flags set (lines 42-48). -/
structure Locals where
  cfg : Config := {}
  replicationCfgPath : String := ""
  taskCfgStr : String := ""
  showExamples : Bool := false
  selectStreams : List String := []
  iterate : Int := 1

/-- Go `strings.Contains(s, sub)`. -/
def containsSub (s sub : String) : Bool :=
  decide (sub.toList <:+: s.toList)

/-- Go `strings.Split(s, ",")`. -/
def splitComma (s : String) : List String :=
  s.splitOn ","

/-- The assignment of one field of an options block, the block being created
when the pointer is nil (lines 103-106 and 117-120). -/
def setField (o : Option Options) (k : String) (v : Val) : Option Options :=
  some ((k, v) :: (o.getD []).filter (fun kv => kv.1 ≠ k))

/-- The error of line 114. -/
def invalidIterate : Err :=
  .msg "invalid value for `iterate`"

/-- The locals with `cfg` replaced: an assignment to a field of `cfg`. -/
def Locals.setCfg (l : Locals) (c : Config) : Locals :=
  { l with cfg := c }

/-- The case `"src-options"` (lines 82-92). -/
def applySourceOptions (f : FlagDeps) (l : Locals) (v : Val) : Locals × Option Err :=
  let payload := f.castToString v
  let r := parsePayload f.parsers payload true
  match r.2 with
  | some e => (l, some (.wrap e ("invalid source options -> " ++ payload)))
  | none =>
    match f.convertOptions r.1 l.cfg.Source.Options with
    | .error e => (l, some (.wrap e ("invalid source options -> " ++ payload)))
    | .ok o => (l.setCfg { l.cfg with Source := { l.cfg.Source with Options := o } }, none)

/-- The case `"tgt-options"` (lines 129-139). -/
def applyTargetOptions (f : FlagDeps) (l : Locals) (v : Val) : Locals × Option Err :=
  let payload := f.castToString v
  let r := parsePayload f.parsers payload true
  match r.2 with
  | some e => (l, some (.wrap e ("invalid target options -> " ++ payload)))
  | none =>
    match f.convertOptions r.1 l.cfg.Target.Options with
    | .error e => (l, some (.wrap e ("invalid target options -> " ++ payload)))
    | .ok o => (l.setCfg { l.cfg with Target := { l.cfg.Target with Options := o } }, none)

/-- The case `"env"` (lines 140-150). -/
def applyEnv (f : FlagDeps) (l : Locals) (v : Val) : Locals × Option Err :=
  let payload := f.castToString v
  let r := parsePayload f.parsers payload false
  match r.2 with
  | some e => (l, some (.wrap e ("invalid env variable map -> " ++ payload)))
  | none =>
    match f.convertEnv r.1 l.cfg.Env with
    | .error e => (l, some (.wrap e ("invalid env variable map -> " ++ payload)))
    | .ok env => (l.setCfg { l.cfg with Env := env }, none)

/-- The case `"iterate"` (lines 108-115). -/
def applyIterate (f : FlagDeps) (l : Locals) (v : Val) : Locals × Option Err :=
  if f.castToString v = "infinite" then ({ l with iterate := -1 }, none)
  else if 0 < f.castToInt v then ({ l with iterate := f.castToInt v }, none)
  else (l, some invalidIterate)

/-- The cases `"src-stream"`, `"src-table"`, `"src-sql"`, `"src-file"`
(lines 74-81). -/
def applySourceStream (f : FlagDeps) (vals : List (String × Val)) (l : Locals) (v : Val) :
    Locals :=
  let s := f.castToString v
  let conn :=
    if containsSub s "://" && (vals.lookup "src-conn").isNone then s else l.cfg.Source.Conn
  l.setCfg { l.cfg with StreamName := s,
                        Source := { l.cfg.Source with Stream := s, Conn := conn } }

/-- The cases `"tgt-object"`, `"tgt-table"`, `"tgt-file"` (lines 122-128). -/
def applyTargetObject (f : FlagDeps) (vals : List (String × Val)) (l : Locals) (v : Val) :
    Locals :=
  let s := f.castToString v
  let conn :=
    if containsSub s "://" && (vals.lookup "tgt-conn").isNone then s else l.cfg.Target.Conn
  l.setCfg { l.cfg with Target := { l.cfg.Target with Object := s, Conn := conn } }

/-- One pass through the body of `for k, v := range c.Vals` (lines 64-168):
the `switch` on the key.  `vals` is the whole map, looked up by two cases.
The result is the locals after the case and the error `processRun` returns
from inside the loop, if any.  Writes to the process environment are left
out. -/
def applyFlag (f : FlagDeps) (vals : List (String × Val)) (l : Locals) (k : String)
    (v : Val) : Locals × Option Err :=
  if k = "replication" then ({ l with replicationCfgPath := f.castToString v }, none)
  else if k = "config" then ({ l with taskCfgStr := f.castToString v }, none)
  else if k = "src-conn" then
    (l.setCfg { l.cfg with Source := { l.cfg.Source with Conn := f.castToString v } }, none)
  else if k = "src-stream" ∨ k = "src-table" ∨ k = "src-sql" ∨ k = "src-file" then
    (applySourceStream f vals l v, none)
  else if k = "src-options" then applySourceOptions f l v
  else if k = "tgt-conn" then
    (l.setCfg { l.cfg with Target := { l.cfg.Target with Conn := f.castToString v } }, none)
  else if k = "primary-key" then
    (l.setCfg { l.cfg with
      Source := { l.cfg.Source with PrimaryKeyI := splitComma (f.castToString v) } }, none)
  else if k = "update-key" then
    (l.setCfg { l.cfg with Source := { l.cfg.Source with UpdateKey := f.castToString v } },
      none)
  else if k = "limit" then
    (l.setCfg { l.cfg with
      Source := { l.cfg.Source with
        Options := setField l.cfg.Source.Options "limit" (.num (f.castToInt v)) } }, none)
  else if k = "iterate" then applyIterate f l v
  else if k = "range" then
    (l.setCfg { l.cfg with
      Source := { l.cfg.Source with
        Options := setField l.cfg.Source.Options "range" (.str (f.castToString v)) } }, none)
  else if k = "tgt-object" ∨ k = "tgt-table" ∨ k = "tgt-file" then
    (applyTargetObject f vals l v, none)
  else if k = "tgt-options" then applyTargetOptions f l v
  else if k = "env" then applyEnv f l v
  else if k = "stdout" then
    (l.setCfg { l.cfg with Options := { l.cfg.Options with StdOut := f.castToBool v } }, none)
  else if k = "mode" then (l.setCfg { l.cfg with Mode := f.castToString v }, none)
  else if k = "select" then
    (l.setCfg { l.cfg with
      Source := { l.cfg.Source with Select := splitComma (f.castToString v) } }, none)
  else if k = "streams" then ({ l with selectStreams := splitComma (f.castToString v) }, none)
  else if k = "debug" then
    (l.setCfg { l.cfg with Options := { l.cfg.Options with Debug := f.castToBool v } }, none)
  else if k = "examples" then ({ l with showExamples := f.castToBool v }, none)
  else (l, none)

/-- The loop `for k, v := range c.Vals` (lines 64-168) over the entries still
to visit, in the order in which the range meets them. -/
def applyFlags (f : FlagDeps) (vals : List (String × Val)) :
    List (String × Val) → Locals → Locals × Option Err
  | [], l => (l, none)
  | kv :: rest, l =>
    match applyFlag f vals l kv.1 kv.2 with
    | (l1, some e) => (l1, some e)
    | (l1, none) => applyFlags f vals rest l1

/-- The locals before the flags are read (lines 41-62). -/
def initLocals (f : FlagDeps) : Locals :=
  { cfg := { Options := { StdIn := f.stdinPiped } } }

/-- The locals after the loop over the flags, and the error returned from
inside that loop, if any (lines 41-168). -/
def readFlags (f : FlagDeps) (vals : List (String × Val)) : Locals × Option Err :=
  applyFlags f vals vals (initLocals f)

/-- The error of line 176. -/
def bothConfigs : Err :=
  .msg "cannot provide replication and task configuration. Choose one."

/-- The function `processRun(c)` (lines 40-222) on the flag values `vals`,
its loop run for at most `fuel` iterations.  The panic recovery, the update
check and the writes to the process environment are left out. -/
def processRun {σ : Type} (d : Deps σ) (f : FlagDeps) (vals : List (String × Val))
    (fuel : Nat) (w : σ) : ProcessResult σ :=
  let l := (readFlags f vals).1
  match (readFlags f vals).2 with
  | some e => { returned := true, err := some e, final := { world := w, cfg := l.cfg } }
  | none =>
    if l.showExamples then { returned := true, final := { world := w, cfg := l.cfg } }
    else if l.replicationCfgPath ≠ "" ∧ l.taskCfgStr ≠ "" then
      { returned := true, err := some bothConfigs, final := { world := w, cfg := l.cfg } }
    else
      processRunLoop d l.replicationCfgPath l.taskCfgStr l.selectStreams l.iterate fuel
        { world := w, cfg := l.cfg }

/-! ## Predicates used in the statements -/

/-- The aggregate is a projection of the trace: `succcess` counts the calls
without error and `eG.Errors` lists the errors of the others, in order. -/
def Aggregated {σ : Type} (st : LoopState σ) : Prop :=
  st.succcess = (st.trace.filter (fun t => t.err.isNone)).length ∧
  st.eG.Errors = st.trace.filterMap (fun t => t.err)

/-- A reached stream that gets a transfer: it has a target object and is not
disabled. -/
def runnable (r : String × ReplicationStreamConfig) : Bool :=
  r.2.Object ≠ "" && !r.2.Disabled

/-- The calls of `runTask` are those of the runnable reached streams. -/
def TraceOfReached {σ : Type} (st : LoopState σ) : Prop :=
  st.trace.map (fun t => t.name) = (st.reached.filter runnable).map Prod.fst

/-- The stream `name` as the loop body sees it after `SetStreamDefaults`
(lines 374-378), in loop state `st`. -/
def mergedStream {σ : Type} (d : Deps σ) (st : LoopState σ) (name : String) :
    ReplicationStreamConfig :=
  d.setStreamDefaults ((lookupStream st.replication name).getD {}) st.replication

/-- The stream loop of a loaded run stopped after the names `pre`, the first
part of the resolved order: the loop state before the stream that follows
`pre`, and how the loop over `pre` was left. -/
def loopBefore {σ : Type} (d : Deps σ) (w : σ) (replication : ReplicationConfig)
    (selectStreams pre : List String) : LoopState σ × LoopExit :=
  replicationLoop d (cleanSelectStreams d replication selectStreams)
    (streamCount replication (cleanSelectStreams d replication selectStreams)) 0 pre
    (initLoopState d w replication (cleanSelectStreams d replication selectStreams))

/-- The names the stream loop hands to `runTask` when it is never interrupted,
computed from the selectors and the spec alone: the loop body without the
world and without the transfer (selection test, merge of the defaults, object
test, disabled test). -/
def plannedNames {σ : Type} (d : Deps σ) (selectStreams : List String) :
    List String → ReplicationConfig → List String
  | [], _ => []
  | name :: rest, replication =>
    if 0 < selectStreams.length && !IsMatched d selectStreams name then
      plannedNames d selectStreams rest replication
    else
      let ptr := lookupStream replication name
      let stream := d.setStreamDefaults (ptr.getD {}) replication
      let replication1 :=
        match ptr with
        | some _ => storeStream replication name stream
        | none => replication
      if stream.Object = "" then []
      else if stream.Disabled then plannedNames d selectStreams rest replication1
      else name :: plannedNames d selectStreams rest replication1

/-! ## A concrete setting for the examples -/

/-- Parsers for the examples.  They answer as `encoding/json` and `yaml.v2`
do on the payloads of `TestOptions` and on the JSON payload with the key
`a:b`, and reject every other payload: unquoted keys are not JSON; in YAML a
colon that no space follows is part of the scalar, so `use_bulk:false` inside
braces is a key without value and outside braces is a string, not a map. -/
def demoParsers : Parsers where
  unmarshalMap := fun s =>
    if s = "\x7b\"use_bulk\":false\x7d" ∨ s = "\x7b\"use_bulk\": false\x7d" then
      (some [("use_bulk", .bool false)], none)
    else if s = "\x7b\"a:b\":1\x7d" then (some [("a:b", .num 1)], none)
    else (some [], some (.wrap (.msg "invalid character") "could not unmarshal into map"))
  yamlUnmarshal := fun s m =>
    if s = "\x7buse_bulk: false\x7d" ∨ s = "use_bulk: false" then
      (some [("use_bulk", .bool false)], none)
    else if s = "\x7buse_bulk:false\x7d" then (some [("use_bulk:false", .null)], none)
    else (m, some (.msg "yaml: unmarshal errors"))

/-- The flag helpers for the examples: they agree with `spf13/cast` on the
strings and booleans used there (`cast.ToInt` of a string that is no number
is 0); the conversions of `g.JSONConvert` keep the parsed mapping. -/
def demoFlagDeps : FlagDeps where
  castToString := fun v => match v with
    | .str s => s
    | .bool true => "true"
    | .bool false => "false"
    | .num n => toString n
    | _ => ""
  castToInt := fun v => match v with
    | .num n => n
    | .bool true => 1
    | .str "1" => 1
    | .str "2" => 2
    | .str "3" => 3
    | .str "-1" => -1
    | _ => 0
  castToBool := fun v => match v with
    | .bool b => b
    | .str "true" => true
    | _ => false
  convertOptions := fun m _ => .ok m
  convertEnv := fun _ env => .ok env
  parsers := demoParsers
  stdinPiped := false

/-- Collaborators for the examples.  The world is the number of transfers
made so far; the flag `interrupted` is set once `interruptAt` transfers were
made; the spec `rep` loads from any path, has no wildcard and no defaults;
stream names are matched exactly; the transfer fails for the streams listed
in `failing`. -/
def demoDeps (rep : ReplicationConfig) (failing : List String) (interruptAt : Option Nat) :
    Deps Nat where
  interrupted := fun w => match interruptAt with
    | some k => decide (k ≤ w)
    | none => false
  loadReplicationConfig := fun w _ => (w, .ok rep)
  processWildcards := fun w r => (w, .ok r)
  hasStream := fun r v => r.Streams.any (fun kv => kv.1 == v)
  streamsOrdered := fun r => r.Streams.map Prod.fst
  setStreamDefaults := fun s _ => s
  primaryKey := fun s => s.PrimaryKeyI
  toMapString := fun _ => []
  roundTrip := fun o => o
  matchOne := fun f n => f == n
  runTask := fun w cfg _ =>
    (w + 1, cfg, if failing.contains cfg.StreamName then some (.msg "transfer failed") else none)
  unmarshal := fun w cfg _ => (w, .ok cfg)
  sleep := fun w => w

/-- The spec of the examples: streams A, B, C, each with a target object. -/
def specABC : ReplicationConfig :=
  { Source := "src", Target := "tgt",
    Streams := [("A", some { Object := "a" }), ("B", some { Object := "b" }),
                ("C", some { Object := "c" })] }

/-- A spec whose first stream is disabled and has no target object. -/
def specDisabledNoObject : ReplicationConfig :=
  { Source := "src", Target := "tgt",
    Streams := [("A", some { Object := "", Disabled := true }),
                ("B", some { Object := "b" })] }

/-- A spec whose middle stream is disabled and has a target object. -/
def specDisabledB : ReplicationConfig :=
  { Source := "src", Target := "tgt",
    Streams := [("A", some { Object := "a" }),
                ("B", some { Object := "b", Disabled := true }),
                ("C", some { Object := "c" })] }

/-- The loop log holds no completion summary. -/
def NoSummary {σ : Type} (st : LoopState σ) : Prop :=
  ∀ a b, LogLine.completed a b ∉ st.log

/-- Every stream reached so far has a target object. -/
def ReachedWithObject {σ : Type} (st : LoopState σ) : Prop :=
  ∀ r ∈ st.reached, r.2.Object ≠ ""

/-- A spec with the streams A (failing in the examples), C, B, D, where B has
no target object. -/
def specNoObjectLate : ReplicationConfig :=
  { Source := "src", Target := "tgt",
    Streams := [("A", some { Object := "a" }), ("C", some { Object := "c" }),
                ("B", some { Object := "" }), ("D", some { Object := "d" })] }

/-- Every reached stream that is disabled and has an object has its skip
line in the loop log. -/
def DisabledLogged {σ : Type} (cnt : Nat) (st : LoopState σ) : Prop :=
  ∀ r ∈ st.reached, r.2.Object ≠ "" → r.2.Disabled = true →
    ∃ c, LogLine.skipDisabled c cnt r.1 ∈ st.log

/-- The stream names handed to the transfer engine by a run: the `StreamName`
of each `Config` passed to `runTask`, in execution order. -/
def handedNames {σ : Type} (r : RunResult σ) : List String :=
  r.trace.map (fun t => t.cfg.StreamName)

/-- Every call of `runTask` was made with the `Config` of the stream it is
recorded for. -/
def NamesHanded {σ : Type} (st : LoopState σ) : Prop :=
  ∀ t ∈ st.trace, t.cfg.StreamName = t.name

/-! ## Lemmas on the stream loop -/

section Loop

variable {σ : Type} (d : Deps σ) (sel : List String) (cnt : Nat)

/-- A property of the loop state that every pass through the body keeps is
kept by the loop. -/
theorem replicationLoop_preserves (Inv : LoopState σ → Prop)
    (hstep : ∀ i name st, Inv st → Inv (streamStep d sel cnt i name st).1) :
    ∀ (ns : List String) (i : Nat) (st : LoopState σ),
      Inv st → Inv (replicationLoop d sel cnt i ns st).1 := by
  intro ns
  induction ns with
  | nil => intro i st h; simpa [replicationLoop] using h
  | cons name rest ih =>
    intro i st h
    have h1 := hstep i name st h
    unfold replicationLoop
    rcases hs : streamStep d sel cnt i name st with ⟨st1, _ | exit⟩
    · rw [hs] at h1; exact ih (i + 1) st1 h1
    · rw [hs] at h1; exact h1

theorem streamStep_aggregated (i : Nat) (name : String) (st : LoopState σ)
    (h : Aggregated st) : Aggregated (streamStep d sel cnt i name st).1 := by
  obtain ⟨h1, h2⟩ := h
  unfold Aggregated
  dsimp only [streamStep]
  split_ifs
  · exact ⟨h1, h2⟩
  · exact ⟨h1, h2⟩
  · exact ⟨h1, h2⟩
  · exact ⟨h1, h2⟩
  · split
    · rename_i err he
      constructor
      · simp [List.filter_append, he, h1]
      · simp [List.filterMap_append, he, h2, ErrorGroup.Capture]
    · rename_i he
      constructor
      · simp [List.filter_append, he, h1]
      · simp [List.filterMap_append, he, h2]

theorem replicationLoop_aggregated (ns : List String) (i : Nat) (st : LoopState σ)
    (h : Aggregated st) : Aggregated (replicationLoop d sel cnt i ns st).1 :=
  replicationLoop_preserves d sel cnt Aggregated (streamStep_aggregated d sel cnt) ns i st h

theorem streamStep_traceOfReached (i : Nat) (name : String) (st : LoopState σ)
    (h : TraceOfReached st) : TraceOfReached (streamStep d sel cnt i name st).1 := by
  unfold TraceOfReached at h ⊢
  dsimp only [streamStep]
  split_ifs with h1 h2 h3 h4
  · exact h
  · exact h
  · simp [List.filter_append, runnable, h3, h]
  · simp [List.filter_append, runnable, h3, h4, h]
  · split <;> simp [List.filter_append, runnable, h3, h4, h]

theorem replicationLoop_traceOfReached (ns : List String) (i : Nat) (st : LoopState σ)
    (h : TraceOfReached st) : TraceOfReached (replicationLoop d sel cnt i ns st).1 :=
  replicationLoop_preserves d sel cnt TraceOfReached (streamStep_traceOfReached d sel cnt)
    ns i st h

/-- The body leaves the loop by `break` only when the flag is set. -/
theorem streamStep_brk (i : Nat) (name : String) (st : LoopState σ) :
    (streamStep d sel cnt i name st).2 = some .brk → d.interrupted st.world = true := by
  dsimp only [streamStep]
  split_ifs with h1 h2 h3 h4
  · exact fun _ => h1
  · simp
  · simp
  · simp
  · split <;> simp

/-- The world changes only in a transfer, so a flag that is unset in every
world never breaks the loop. -/
theorem replicationLoop_ne_brk (hint : ∀ w, d.interrupted w = false) :
    ∀ (ns : List String) (i : Nat) (st : LoopState σ),
      (replicationLoop d sel cnt i ns st).2 ≠ .brk := by
  intro ns
  induction ns with
  | nil => intro i st; simp [replicationLoop]
  | cons name rest ih =>
    intro i st
    unfold replicationLoop
    rcases hs : streamStep d sel cnt i name st with ⟨st1, _ | exit⟩
    · exact ih (i + 1) st1
    · intro hb
      have hb2 : (streamStep d sel cnt i name st).2 = some .brk := by rw [hs]; simpa using hb
      have := streamStep_brk d sel cnt i name st hb2
      rw [hint] at this
      exact Bool.noConfusion this

/-- The body returns only the missing-object error, for the stream it has
just reached. -/
theorem streamStep_ret (i : Nat) (name : String) (st : LoopState σ) (e : Err) :
    (streamStep d sel cnt i name st).2 = some (.ret e) →
    e = missingObject ∧
      ∃ r ∈ (streamStep d sel cnt i name st).1.reached, r.2.Object = "" := by
  dsimp only [streamStep]
  split_ifs with h1 h2 h3 h4
  · simp
  · simp
  · intro h
    simp only [Option.some.injEq, LoopExit.ret.injEq] at h
    exact ⟨h.symm, _, List.mem_append_right _ (List.mem_singleton.2 rfl), h3⟩
  · simp
  · split <;> simp

theorem replicationLoop_ret :
    ∀ (ns : List String) (i : Nat) (st : LoopState σ) (e : Err),
      (replicationLoop d sel cnt i ns st).2 = .ret e →
      e = missingObject ∧
        ∃ r ∈ (replicationLoop d sel cnt i ns st).1.reached, r.2.Object = "" := by
  intro ns
  induction ns with
  | nil => intro i st e h; simp [replicationLoop] at h
  | cons name rest ih =>
    intro i st e
    unfold replicationLoop
    have hr := streamStep_ret d sel cnt i name st
    rcases hs : streamStep d sel cnt i name st with ⟨st1, _ | exit⟩
    · exact ih (i + 1) st1 e
    · intro h
      rw [hs] at hr
      have h2 : exit = .ret e := h
      exact hr e (by rw [h2])

/-- The body never reports that the range is exhausted. -/
theorem streamStep_ne_done (i : Nat) (name : String) (st : LoopState σ) :
    (streamStep d sel cnt i name st).2 ≠ some .done := by
  dsimp only [streamStep]
  split_ifs with h1 h2 h3 h4
  · simp
  · simp
  · simp
  · simp
  · split <;> simp

theorem passesSelection_false (name : String)
    (h2 : (decide (0 < sel.length) && !IsMatched d sel name) = true) :
    passesSelection d sel name = false := by
  unfold passesSelection; rw [h2]; rfl

theorem passesSelection_true (name : String)
    (h2 : ¬(decide (0 < sel.length) && !IsMatched d sel name) = true) :
    passesSelection d sel name = true := by
  unfold passesSelection; rw [Bool.eq_false_iff.2 h2]; rfl

/-- When the body goes on to the next name, it has reached the name if and
only if the name passed the selection test. -/
theorem streamStep_reached_next (i : Nat) (name : String) (st : LoopState σ) :
    (streamStep d sel cnt i name st).2 = none →
    (streamStep d sel cnt i name st).1.reached.map Prod.fst =
      st.reached.map Prod.fst ++ [name].filter (passesSelection d sel) := by
  by_cases h2 : (decide (0 < sel.length) && !IsMatched d sel name) = true
  · rw [List.filter_cons_of_neg (by rw [passesSelection_false d sel name h2]; simp)]
    dsimp only [streamStep]
    split_ifs with h1
    · simp
    · simp
  · rw [List.filter_cons_of_pos (passesSelection_true d sel name h2)]
    dsimp only [streamStep]
    split_ifs with h1 h3 h4
    · simp
    · simp
    · simp
    · split <;> simp

/-- When the body leaves the loop, it has reached at most the current name. -/
theorem streamStep_reached_exit (i : Nat) (name : String) (st : LoopState σ) (e : LoopExit) :
    (streamStep d sel cnt i name st).2 = some e →
    ∃ l, (streamStep d sel cnt i name st).1.reached.map Prod.fst =
        st.reached.map Prod.fst ++ l ∧
      l <+: [name].filter (passesSelection d sel) := by
  by_cases h2 : (decide (0 < sel.length) && !IsMatched d sel name) = true
  · dsimp only [streamStep]
    split_ifs with h1
    · intro _; exact ⟨[], by simp, List.nil_prefix⟩
    · simp
  · rw [List.filter_cons_of_pos (passesSelection_true d sel name h2)]
    dsimp only [streamStep]
    split_ifs with h1 h3 h4
    · intro _; exact ⟨[], by simp, List.nil_prefix⟩
    · intro _; exact ⟨[name], by simp, by simp⟩
    · simp
    · split <;> simp

/-- The names reached by the loop are a prefix of the names that pass the
selection test, and all of them when the range is exhausted. -/
theorem replicationLoop_reached :
    ∀ (ns : List String) (i : Nat) (st : LoopState σ),
      ∃ l, (replicationLoop d sel cnt i ns st).1.reached.map Prod.fst =
          st.reached.map Prod.fst ++ l ∧
        l <+: ns.filter (passesSelection d sel) ∧
        ((replicationLoop d sel cnt i ns st).2 = .done →
          l = ns.filter (passesSelection d sel)) := by
  intro ns
  induction ns with
  | nil => intro i st; exact ⟨[], by simp [replicationLoop], by simp, fun _ => by simp⟩
  | cons name rest ih =>
    intro i st
    have hn := streamStep_reached_next d sel cnt i name st
    have he := streamStep_reached_exit d sel cnt i name st
    have hd := streamStep_ne_done d sel cnt i name st
    have hsplit : (name :: rest).filter (passesSelection d sel) =
        [name].filter (passesSelection d sel) ++ rest.filter (passesSelection d sel) :=
      List.filter_append [name] rest
    rw [hsplit]
    unfold replicationLoop
    rcases hs : streamStep d sel cnt i name st with ⟨st1, _ | exit⟩
    · rw [hs] at hn
      obtain ⟨l, hl1, hl2, hl3⟩ := ih (i + 1) st1
      have hn1 := hn rfl
      dsimp only at hn1 ⊢
      refine ⟨[name].filter (passesSelection d sel) ++ l, ?_, ?_, ?_⟩
      · rw [hl1, hn1, List.append_assoc]
      · exact (List.prefix_append_right_inj _).2 hl2
      · intro hdone
        rw [hl3 hdone]
    · rw [hs] at he hd
      obtain ⟨l, hl1, hl2⟩ := he exit rfl
      refine ⟨l, hl1, hl2.trans (List.prefix_append _ _), ?_⟩
      intro hdone
      dsimp only at hdone
      exact absurd (by rw [hdone]) hd

/-- The loop over a list in two parts: the second part is run from the state
the first part ends in, unless the first part left the loop. -/
theorem replicationLoop_append :
    ∀ (pre rest : List String) (i : Nat) (st : LoopState σ),
      replicationLoop d sel cnt i (pre ++ rest) st =
        match replicationLoop d sel cnt i pre st with
        | (st1, .done) => replicationLoop d sel cnt (i + pre.length) rest st1
        | out => out := by
  intro pre
  induction pre with
  | nil => intro rest i st; simp [replicationLoop]
  | cons name pre ih =>
    intro rest i st
    have hd := streamStep_ne_done d sel cnt i name st
    simp only [List.cons_append, List.length_cons]
    rw [replicationLoop, replicationLoop]
    rcases hs : streamStep d sel cnt i name st with ⟨st1, _ | exit⟩
    · dsimp only
      rw [ih rest (i + 1) st1]
      have : i + 1 + pre.length = i + (pre.length + 1) := by omega
      rw [this]
    · rw [hs] at hd
      dsimp only
      cases exit with
      | done => exact absurd rfl hd
      | brk => rfl
      | ret e => rfl

/-- With the flag set, the loop leaves its state as it is. -/
theorem replicationLoop_interrupted_state (ns : List String) (i : Nat) (st : LoopState σ)
    (h : d.interrupted st.world = true) :
    (replicationLoop d sel cnt i ns st).1 = st := by
  cases ns with
  | nil => rfl
  | cons name rest => simp [replicationLoop, streamStep, h]

/-- With the flag set, the loop does not return from inside. -/
theorem replicationLoop_interrupted_exit (ns : List String) (i : Nat) (st : LoopState σ)
    (h : d.interrupted st.world = true) (e : Err) :
    (replicationLoop d sel cnt i ns st).2 ≠ .ret e := by
  cases ns with
  | nil => simp [replicationLoop]
  | cons name rest => simp [replicationLoop, streamStep, h]

/-- The loop depends on the selectors only through the selection test. -/
theorem replicationLoop_congr (sel2 : List String)
    (h : ∀ name, passesSelection d sel name = passesSelection d sel2 name) :
    ∀ (ns : List String) (i : Nat) (st : LoopState σ),
      replicationLoop d sel cnt i ns st = replicationLoop d sel2 cnt i ns st := by
  have hstep : ∀ i name st,
      streamStep d sel cnt i name st = streamStep d sel2 cnt i name st := by
    intro i name st
    have hn := h name
    simp only [passesSelection, Bool.not_eq_eq_eq_not, Bool.not_not] at hn
    simp only [streamStep, hn]
  intro ns
  induction ns with
  | nil => intro i st; rfl
  | cons name rest ih =>
    intro i st
    rw [replicationLoop, replicationLoop, hstep i name st]
    rcases streamStep d sel2 cnt i name st with ⟨st1, _ | exit⟩
    · exact ih (i + 1) st1
    · rfl

end Loop

/-! ## Lemmas on `runReplication` -/

section Run

variable {σ : Type} (d : Deps σ)

theorem runReplication_loaded (w w1 w2 : σ) (cfgPath : String) (sel : List String)
    (rep rep2 : ReplicationConfig)
    (hload : d.loadReplicationConfig w cfgPath = (w1, .ok rep))
    (hwild : d.processWildcards w1 rep = (w2, .ok rep2)) :
    runReplication d w cfgPath sel = runLoaded d w2 rep2 sel := by
  unfold runReplication
  rw [hload]
  dsimp only
  rw [hwild]

theorem finishRun_trace (so : List String) (out : LoopState σ × LoopExit) :
    (finishRun so out).trace = out.1.trace := by
  unfold finishRun; split <;> rfl

theorem finishRun_reached (so : List String) (out : LoopState σ × LoopExit) :
    (finishRun so out).reached = out.1.reached := by
  unfold finishRun; split <;> rfl

theorem finishRun_succcess (so : List String) (out : LoopState σ × LoopExit) :
    (finishRun so out).succcess = out.1.succcess := by
  unfold finishRun; split <;> rfl

theorem finishRun_failures (so : List String) (out : LoopState σ × LoopExit) :
    (finishRun so out).failures = out.1.eG.Errors := by
  unfold finishRun; split <;> rfl

theorem finishRun_err_of_not_ret (so : List String) (out : LoopState σ × LoopExit)
    (h : ∀ e, out.2 ≠ .ret e) : (finishRun so out).err = out.1.eG.Err := by
  unfold finishRun
  split
  · rename_i e he; exact absurd he (h e)
  · rfl

theorem initLoopState_aggregated (w : σ) (rep : ReplicationConfig) (sel : List String) :
    Aggregated (initLoopState d w rep sel) := by
  constructor <;> rfl

theorem initLoopState_traceOfReached (w : σ) (rep : ReplicationConfig) (sel : List String) :
    TraceOfReached (initLoopState d w rep sel) := rfl

/-- The calls without error and the calls with an error make up the trace. -/
theorem trace_split_length (l : List Invocation) :
    (l.filter (fun t => t.err.isNone)).length + (l.filterMap (fun t => t.err)).length =
      l.length := by
  induction l with
  | nil => rfl
  | cons t l ih =>
    cases h : t.err with
    | none => simp [List.filter_cons, List.filterMap_cons, h]; omega
    | some e => simp [List.filter_cons, List.filterMap_cons, h]; omega

theorem runLoaded_aggregated (w : σ) (rep : ReplicationConfig) (sel : List String) :
    (runLoaded d w rep sel).succcess =
        ((runLoaded d w rep sel).trace.filter (fun t => t.err.isNone)).length ∧
      (runLoaded d w rep sel).failures =
        (runLoaded d w rep sel).trace.filterMap (fun t => t.err) := by
  unfold runLoaded
  rw [finishRun_succcess, finishRun_failures, finishRun_trace]
  exact replicationLoop_aggregated d _ _ _ _ _ (initLoopState_aggregated d w rep _)

theorem runLoaded_traceOfReached (w : σ) (rep : ReplicationConfig) (sel : List String) :
    (runLoaded d w rep sel).trace.map (fun t => t.name) =
      ((runLoaded d w rep sel).reached.filter runnable).map Prod.fst := by
  unfold runLoaded
  rw [finishRun_reached, finishRun_trace]
  exact replicationLoop_traceOfReached d _ _ _ _ _ (initLoopState_traceOfReached d w rep _)

theorem runLoaded_reached_initial (w : σ) (rep : ReplicationConfig) (sel : List String) :
    (runLoaded d w rep sel).reached.map Prod.fst <+:
      (d.streamsOrdered rep).filter (passesSelection d (cleanSelectStreams d rep sel)) := by
  unfold runLoaded
  rw [finishRun_reached]
  obtain ⟨l, h1, h2, _⟩ := replicationLoop_reached d (cleanSelectStreams d rep sel)
    (streamCount rep (cleanSelectStreams d rep sel)) (d.streamsOrdered rep) 0
    (initLoopState d w rep (cleanSelectStreams d rep sel))
  rw [h1]
  simpa [initLoopState] using h2

/-- With the flag never set and a target object on every reached stream, the
loop runs to the end of the range. -/
theorem runLoaded_exit_done (w : σ) (rep : ReplicationConfig) (sel : List String)
    (hint : ∀ w, d.interrupted w = false)
    (hobj : ∀ r ∈ (runLoaded d w rep sel).reached, r.2.Object ≠ "") :
    (replicationLoop d (cleanSelectStreams d rep sel)
      (streamCount rep (cleanSelectStreams d rep sel)) 0 (d.streamsOrdered rep)
      (initLoopState d w rep (cleanSelectStreams d rep sel))).2 = .done := by
  unfold runLoaded at hobj
  rw [finishRun_reached] at hobj
  have hb := replicationLoop_ne_brk d (cleanSelectStreams d rep sel)
    (streamCount rep (cleanSelectStreams d rep sel)) hint (d.streamsOrdered rep) 0
    (initLoopState d w rep (cleanSelectStreams d rep sel))
  have hr := replicationLoop_ret d (cleanSelectStreams d rep sel)
    (streamCount rep (cleanSelectStreams d rep sel)) (d.streamsOrdered rep) 0
    (initLoopState d w rep (cleanSelectStreams d rep sel))
  generalize replicationLoop d (cleanSelectStreams d rep sel)
      (streamCount rep (cleanSelectStreams d rep sel)) 0 (d.streamsOrdered rep)
      (initLoopState d w rep (cleanSelectStreams d rep sel)) = out at hobj hb hr ⊢
  rcases out with ⟨st, _ | _ | e⟩
  · rfl
  · exact absurd rfl hb
  · obtain ⟨_, r, hr1, hr2⟩ := hr e rfl
    exact absurd hr2 (hobj r hr1)

theorem runLoaded_reached_all (w : σ) (rep : ReplicationConfig) (sel : List String)
    (hint : ∀ w, d.interrupted w = false)
    (hobj : ∀ r ∈ (runLoaded d w rep sel).reached, r.2.Object ≠ "") :
    (runLoaded d w rep sel).reached.map Prod.fst =
      (d.streamsOrdered rep).filter (passesSelection d (cleanSelectStreams d rep sel)) := by
  have hdone := runLoaded_exit_done d w rep sel hint hobj
  unfold runLoaded
  rw [finishRun_reached]
  obtain ⟨l, h1, _, h3⟩ := replicationLoop_reached d (cleanSelectStreams d rep sel)
    (streamCount rep (cleanSelectStreams d rep sel)) (d.streamsOrdered rep) 0
    (initLoopState d w rep (cleanSelectStreams d rep sel))
  rw [h1, h3 hdone]
  simp [initLoopState]

/-- Unless the loop returned from inside, the error of `runReplication` is
that of the error group. -/
theorem runLoaded_err_iff (w : σ) (rep : ReplicationConfig) (sel : List String)
    (hobj : ∀ r ∈ (runLoaded d w rep sel).reached, r.2.Object ≠ "") :
    (runLoaded d w rep sel).err.isSome = true ↔
      ∃ t ∈ (runLoaded d w rep sel).trace, t.err.isSome = true := by
  have hagg := (runLoaded_aggregated d w rep sel).2
  have herr : (runLoaded d w rep sel).err =
      (ErrorGroup.mk (runLoaded d w rep sel).failures).Err := by
    unfold runLoaded at hobj ⊢
    rw [finishRun_reached] at hobj
    rw [finishRun_failures]
    apply finishRun_err_of_not_ret
    intro e he
    obtain ⟨_, r, hr1, hr2⟩ := replicationLoop_ret d _ _ _ _ _ e he
    exact absurd hr2 (hobj r hr1)
  rw [herr, hagg]
  unfold ErrorGroup.Err
  constructor
  · intro h
    split_ifs at h with h0
    · simp at h
    · have hne : (runLoaded d w rep sel).trace.filterMap (fun t => t.err) ≠ [] := by
        intro hnil; exact h0 (by simp [hnil])
      obtain ⟨e, he⟩ := List.exists_mem_of_ne_nil _ hne
      obtain ⟨t, ht, hte⟩ := List.mem_filterMap.1 he
      exact ⟨t, ht, by simp [hte]⟩
  · rintro ⟨t, ht, hte⟩
    obtain ⟨e, he⟩ := Option.isSome_iff_exists.1 hte
    have hmem : e ∈ (runLoaded d w rep sel).trace.filterMap (fun t => t.err) :=
      List.mem_filterMap.2 ⟨t, ht, he⟩
    have hlen : ((runLoaded d w rep sel).trace.filterMap (fun t => t.err)).length ≠ 0 := by
      intro h0
      rw [List.length_eq_zero] at h0
      rw [h0] at hmem
      exact absurd hmem (List.not_mem_nil _)
    simp [hlen]

end Run

/-! ## The claims on `runReplication` -/

section Claims

variable {σ : Type} (d : Deps σ)

/-- C1 (continue on error): when the spec loads and expands, the interruption
flag is unset in every world and every reached stream has a target object,
then whatever errors the transfers return, the streams reached are exactly
the resolved streams that pass the selection test, in resolved order, and
`runTask` is called exactly for the reached streams that are not disabled, in
that order: a failed transfer keeps no later stream from its call. -/
theorem runReplication_continue_on_error (w w1 w2 : σ) (cfgPath : String)
    (sel : List String) (rep rep2 : ReplicationConfig)
    (hload : d.loadReplicationConfig w cfgPath = (w1, .ok rep))
    (hwild : d.processWildcards w1 rep = (w2, .ok rep2))
    (hint : ∀ w, d.interrupted w = false)
    (hobj : ∀ r ∈ (runReplication d w cfgPath sel).reached, r.2.Object ≠ "") :
    (runReplication d w cfgPath sel).reached.map Prod.fst =
        (d.streamsOrdered rep2).filter (passesSelection d (cleanSelectStreams d rep2 sel)) ∧
      (runReplication d w cfgPath sel).trace.map (fun t => t.name) =
        ((runReplication d w cfgPath sel).reached.filter (fun r => !r.2.Disabled)).map
          Prod.fst := by
  rw [runReplication_loaded d w w1 w2 cfgPath sel rep rep2 hload hwild] at hobj ⊢
  refine ⟨runLoaded_reached_all d w2 rep2 sel hint hobj, ?_⟩
  rw [runLoaded_traceOfReached]
  congr 1
  apply List.filter_congr
  intro r hr
  simp [runnable, hobj r hr]

/-- C1 at a concrete run: streams A, B, C, no selector, the transfer of B
fails; all three transfers are made, with 2 successes and 1 failure. -/
theorem runReplication_continue_on_error_witness :
    (∀ r ∈ (runReplication (demoDeps specABC ["B"] none) 0 "replication.yaml" []).reached,
        r.2.Object ≠ "") ∧
      ((runReplication (demoDeps specABC ["B"] none) 0 "replication.yaml" []).reached.map
            Prod.fst =
          ((demoDeps specABC ["B"] none).streamsOrdered specABC).filter
            (passesSelection (demoDeps specABC ["B"] none)
              (cleanSelectStreams (demoDeps specABC ["B"] none) specABC [])) ∧
        (runReplication (demoDeps specABC ["B"] none) 0 "replication.yaml" []).trace.map
            (fun t => t.name) =
          ((runReplication (demoDeps specABC ["B"] none) 0 "replication.yaml"
            []).reached.filter (fun r => !r.2.Disabled)).map Prod.fst) ∧
      (runReplication (demoDeps specABC ["B"] none) 0 "replication.yaml" []).trace.map
          (fun t => t.name) = ["A", "B", "C"] ∧
      (runReplication (demoDeps specABC ["B"] none) 0 "replication.yaml" []).succcess = 2 ∧
      (runReplication (demoDeps specABC ["B"] none) 0 "replication.yaml" []).failures.length
        = 1 :=
  ⟨by decide,
   runReplication_continue_on_error (demoDeps specABC ["B"] none) 0 0 0 "replication.yaml" []
     specABC specABC rfl rfl (fun _ => rfl) (by decide),
   by decide, by decide, by decide⟩

/-- C2 as stated fails: with streams A, B, C and the one selector "Z", which
matches no stream, the clean-up drops the selector, the selector list is then
empty, and all three streams are handed to `runTask`. -/
theorem selection_unmatched_selector_runs_all :
    (∀ n ∈ (demoDeps specABC [] none).streamsOrdered specABC,
        (demoDeps specABC [] none).matchOne "Z" n = false) ∧
      (runReplication (demoDeps specABC [] none) 0 "replication.yaml" ["Z"]).trace.map
          (fun t => t.name) = ["A", "B", "C"] := by
  decide

/-- C2, amended: let `cleaned` be the supplied selectors that name a stream
(`HasStream`).  Every stream handed to `runTask` passes the selection test on
`cleaned`; when `cleaned` is not empty it matches a supplied selector that
names a stream; when `cleaned` is empty every stream passes.  The reached
streams are a prefix of the resolved streams that pass the test (all of them
when the flag is never set and no reached stream lacks its object), and the
streams handed to `runTask` are the reached ones that have an object and are
not disabled. -/
theorem selection_filter_cleaned (w w1 w2 : σ) (cfgPath : String)
    (sel : List String) (rep rep2 : ReplicationConfig)
    (hload : d.loadReplicationConfig w cfgPath = (w1, .ok rep))
    (hwild : d.processWildcards w1 rep = (w2, .ok rep2)) :
    (∀ t ∈ (runReplication d w cfgPath sel).trace,
        passesSelection d (cleanSelectStreams d rep2 sel) t.name = true) ∧
      (cleanSelectStreams d rep2 sel ≠ [] →
        ∀ t ∈ (runReplication d w cfgPath sel).trace,
          ∃ s ∈ sel, d.hasStream rep2 s = true ∧ d.matchOne s t.name = true) ∧
      (cleanSelectStreams d rep2 sel = [] →
        ∀ n, passesSelection d (cleanSelectStreams d rep2 sel) n = true) ∧
      (runReplication d w cfgPath sel).reached.map Prod.fst <+:
        (d.streamsOrdered rep2).filter (passesSelection d (cleanSelectStreams d rep2 sel)) ∧
      ((∀ w, d.interrupted w = false) →
        (∀ r ∈ (runReplication d w cfgPath sel).reached, r.2.Object ≠ "") →
        (runReplication d w cfgPath sel).reached.map Prod.fst =
          (d.streamsOrdered rep2).filter
            (passesSelection d (cleanSelectStreams d rep2 sel))) ∧
      (runReplication d w cfgPath sel).trace.map (fun t => t.name) =
        ((runReplication d w cfgPath sel).reached.filter runnable).map Prod.fst := by
  rw [runReplication_loaded d w w1 w2 cfgPath sel rep rep2 hload hwild]
  have hpass : ∀ t ∈ (runLoaded d w2 rep2 sel).trace,
      passesSelection d (cleanSelectStreams d rep2 sel) t.name = true := by
    intro t ht
    have h1 : t.name ∈ (runLoaded d w2 rep2 sel).trace.map (fun t => t.name) :=
      List.mem_map.2 ⟨t, ht, rfl⟩
    rw [runLoaded_traceOfReached] at h1
    have h2 : t.name ∈ (runLoaded d w2 rep2 sel).reached.map Prod.fst :=
      ((List.filter_sublist _).map Prod.fst).subset h1
    have h3 := (runLoaded_reached_initial d w2 rep2 sel).subset h2
    exact (List.mem_filter.1 h3).2
  refine ⟨hpass, ?_, ?_, runLoaded_reached_initial d w2 rep2 sel, ?_,
    runLoaded_traceOfReached d w2 rep2 sel⟩
  · intro hne t ht
    have hp := hpass t ht
    have hlen : 0 < (cleanSelectStreams d rep2 sel).length := List.length_pos.2 hne
    simp only [passesSelection, hlen, decide_True, Bool.true_and, Bool.not_not] at hp
    obtain ⟨s, hs, hm⟩ := List.any_eq_true.1 hp
    obtain ⟨hs1, hs2⟩ := List.mem_filter.1 hs
    exact ⟨s, hs1, hs2, hm⟩
  · intro hnil n
    simp [passesSelection, hnil]
  · intro hint hobj
    exact runLoaded_reached_all d w2 rep2 sel hint hobj

/-- C2, amended, at concrete runs: with selectors Z and B the clean-up keeps
B and only B is run; with selector Z alone nothing is kept and all run. -/
theorem selection_filter_cleaned_witness :
    ((∀ t ∈ (runReplication (demoDeps specABC [] none) 0 "replication.yaml"
          ["Z", "B"]).trace,
        passesSelection (demoDeps specABC [] none)
          (cleanSelectStreams (demoDeps specABC [] none) specABC ["Z", "B"]) t.name = true) ∧
      (cleanSelectStreams (demoDeps specABC [] none) specABC ["Z", "B"] ≠ [] →
        ∀ t ∈ (runReplication (demoDeps specABC [] none) 0 "replication.yaml"
            ["Z", "B"]).trace,
          ∃ s ∈ ["Z", "B"], (demoDeps specABC [] none).hasStream specABC s = true ∧
            (demoDeps specABC [] none).matchOne s t.name = true) ∧
      (cleanSelectStreams (demoDeps specABC [] none) specABC ["Z", "B"] = [] →
        ∀ n, passesSelection (demoDeps specABC [] none)
          (cleanSelectStreams (demoDeps specABC [] none) specABC ["Z", "B"]) n = true) ∧
      (runReplication (demoDeps specABC [] none) 0 "replication.yaml"
          ["Z", "B"]).reached.map Prod.fst <+:
        ((demoDeps specABC [] none).streamsOrdered specABC).filter
          (passesSelection (demoDeps specABC [] none)
            (cleanSelectStreams (demoDeps specABC [] none) specABC ["Z", "B"])) ∧
      ((∀ w, (demoDeps specABC [] none).interrupted w = false) →
        (∀ r ∈ (runReplication (demoDeps specABC [] none) 0 "replication.yaml"
            ["Z", "B"]).reached, r.2.Object ≠ "") →
        (runReplication (demoDeps specABC [] none) 0 "replication.yaml"
            ["Z", "B"]).reached.map Prod.fst =
          ((demoDeps specABC [] none).streamsOrdered specABC).filter
            (passesSelection (demoDeps specABC [] none)
              (cleanSelectStreams (demoDeps specABC [] none) specABC ["Z", "B"]))) ∧
      (runReplication (demoDeps specABC [] none) 0 "replication.yaml"
          ["Z", "B"]).trace.map (fun t => t.name) =
        ((runReplication (demoDeps specABC [] none) 0 "replication.yaml"
          ["Z", "B"]).reached.filter runnable).map Prod.fst) ∧
      cleanSelectStreams (demoDeps specABC [] none) specABC ["Z", "B"] = ["B"] ∧
      (runReplication (demoDeps specABC [] none) 0 "replication.yaml"
          ["Z", "B"]).trace.map (fun t => t.name) = ["B"] ∧
      cleanSelectStreams (demoDeps specABC [] none) specABC ["Z"] = [] :=
  ⟨selection_filter_cleaned (demoDeps specABC [] none) 0 0 0 "replication.yaml" ["Z", "B"]
     specABC specABC rfl rfl,
   by decide, by decide, by decide⟩

/-- C3 as stated fails: a disabled stream A without target object, followed by
the stream B, makes `runReplication` return the missing-object error; B is
neither reached nor run. -/
theorem disabled_without_object_aborts :
    (runReplication (demoDeps specDisabledNoObject [] none) 0 "replication.yaml" []).err =
        some missingObject ∧
      ((runReplication (demoDeps specDisabledNoObject [] none) 0 "replication.yaml"
          []).reached.map Prod.fst = ["A"] ∧
        (runReplication (demoDeps specDisabledNoObject [] none) 0 "replication.yaml"
          []).trace.map (fun t => t.name) = []) :=
  ⟨rfl, by decide⟩

/-- C3, amended: a stream that the loop reaches (flag unset, selection test
passed) and that, after the defaults are merged, is disabled and has a target
object, is skipped: the loop goes on with the names after it, from a state
with the same world, trace, error group, success count and `errors`; the
body does not leave the loop on its account. -/
theorem disabled_with_object_skipped (sel : List String) (cnt i : Nat) (name : String)
    (rest : List String) (st : LoopState σ)
    (hint : d.interrupted st.world = false)
    (hsel : passesSelection d sel name = true)
    (hobj : (mergedStream d st name).Object ≠ "")
    (hdis : (mergedStream d st name).Disabled = true) :
    (streamStep d sel cnt i name st).2 = none ∧
      replicationLoop d sel cnt i (name :: rest) st =
        replicationLoop d sel cnt (i + 1) rest (streamStep d sel cnt i name st).1 ∧
      (streamStep d sel cnt i name st).1.world = st.world ∧
      (streamStep d sel cnt i name st).1.trace = st.trace ∧
      (streamStep d sel cnt i name st).1.eG = st.eG ∧
      (streamStep d sel cnt i name st).1.succcess = st.succcess ∧
      (streamStep d sel cnt i name st).1.errors = st.errors ∧
      (streamStep d sel cnt i name st).1.log =
        st.log ++ [.skipDisabled (st.counter + 1) cnt name] := by
  have hs2 : (decide (0 < sel.length) && !IsMatched d sel name) = false := by
    unfold passesSelection at hsel
    cases hX : (decide (0 < sel.length) && !IsMatched d sel name)
    · rfl
    · rw [hX] at hsel; exact absurd hsel (by decide)
  unfold mergedStream at hobj hdis
  have hstep : streamStep d sel cnt i name st =
      ({ st with counter := st.counter + 1,
                 replication :=
                   match lookupStream st.replication name with
                   | some _ => storeStream st.replication name
                       (d.setStreamDefaults ((lookupStream st.replication name).getD {})
                         st.replication)
                   | none => st.replication,
                 reached := st.reached ++ [(name,
                   d.setStreamDefaults ((lookupStream st.replication name).getD {})
                     st.replication)],
                 log := st.log ++ [.skipDisabled (st.counter + 1) cnt name] }, none) := by
    dsimp only [streamStep]
    rw [if_neg (by rw [hint]; simp), if_neg (by rw [hs2]; simp), if_neg hobj, if_pos hdis]
  refine ⟨by rw [hstep], ?_, by rw [hstep], by rw [hstep], by rw [hstep], by rw [hstep],
    by rw [hstep], by rw [hstep]⟩
  rw [replicationLoop, hstep]

/-- C3, amended, at a concrete run: B is disabled and has an object; A and C
are run, B is not, and no error is returned. -/
theorem disabled_with_object_skipped_witness :
    ((demoDeps specDisabledB [] none).interrupted
          (initLoopState (demoDeps specDisabledB [] none) 0 specDisabledB []).world = false ∧
        passesSelection (demoDeps specDisabledB [] none) [] "B" = true ∧
        (mergedStream (demoDeps specDisabledB [] none)
          (initLoopState (demoDeps specDisabledB [] none) 0 specDisabledB []) "B").Object
            ≠ "" ∧
        (mergedStream (demoDeps specDisabledB [] none)
          (initLoopState (demoDeps specDisabledB [] none) 0 specDisabledB []) "B").Disabled
            = true) ∧
      (streamStep (demoDeps specDisabledB [] none) [] 3 1 "B"
          (initLoopState (demoDeps specDisabledB [] none) 0 specDisabledB [])).2 = none ∧
      (runReplication (demoDeps specDisabledB [] none) 0 "replication.yaml" []).trace.map
          (fun t => t.name) = ["A", "C"] ∧
      (runReplication (demoDeps specDisabledB [] none) 0 "replication.yaml" []).err.isNone
        = true :=
  ⟨⟨rfl, rfl, by decide, rfl⟩,
   (disabled_with_object_skipped (demoDeps specDisabledB [] none) [] 3 1 "B" ["C"]
     (initLoopState (demoDeps specDisabledB [] none) 0 specDisabledB [])
     rfl rfl (by decide) rfl).1,
   by decide, by decide⟩

/-- C4: when the spec loads, its wildcards expand and every reached stream has
a target object, `runReplication` returns an error if and only if some call of
`runTask` returned one; it returns nil when every call succeeded, also when no
call was made. -/
theorem runReplication_error_iff_failure (w w1 w2 : σ) (cfgPath : String)
    (sel : List String) (rep rep2 : ReplicationConfig)
    (hload : d.loadReplicationConfig w cfgPath = (w1, .ok rep))
    (hwild : d.processWildcards w1 rep = (w2, .ok rep2))
    (hobj : ∀ r ∈ (runReplication d w cfgPath sel).reached, r.2.Object ≠ "") :
    ((runReplication d w cfgPath sel).err.isSome = true ↔
        ∃ t ∈ (runReplication d w cfgPath sel).trace, t.err.isSome = true) ∧
      ((∀ t ∈ (runReplication d w cfgPath sel).trace, t.err = none) →
        (runReplication d w cfgPath sel).err = none) ∧
      ((runReplication d w cfgPath sel).trace = [] →
        (runReplication d w cfgPath sel).err = none) := by
  rw [runReplication_loaded d w w1 w2 cfgPath sel rep rep2 hload hwild] at hobj ⊢
  have hiff := runLoaded_err_iff d w2 rep2 sel hobj
  have hnone : (∀ t ∈ (runLoaded d w2 rep2 sel).trace, t.err = none) →
      (runLoaded d w2 rep2 sel).err = none := by
    intro hall
    cases herr : (runLoaded d w2 rep2 sel).err with
    | none => rfl
    | some e =>
      obtain ⟨t, ht, hte⟩ := hiff.1 (by rw [herr]; rfl)
      rw [hall t ht] at hte
      exact absurd hte (by decide)
  refine ⟨hiff, hnone, ?_⟩
  intro hnil
  apply hnone
  intro t ht
  rw [hnil] at ht
  exact absurd ht (List.not_mem_nil _)

/-- C4 at concrete runs: with the transfer of B failing the run returns an
error; with no failing transfer, and with the flag set from the start (no
transfer at all), it returns nil. -/
theorem runReplication_error_iff_failure_witness :
    (∀ r ∈ (runReplication (demoDeps specABC ["B"] none) 0 "replication.yaml" []).reached,
        r.2.Object ≠ "") ∧
      (((runReplication (demoDeps specABC ["B"] none) 0 "replication.yaml" []).err.isSome
            = true ↔
          ∃ t ∈ (runReplication (demoDeps specABC ["B"] none) 0 "replication.yaml" []).trace,
            t.err.isSome = true) ∧
        ((∀ t ∈ (runReplication (demoDeps specABC ["B"] none) 0 "replication.yaml" []).trace,
            t.err = none) →
          (runReplication (demoDeps specABC ["B"] none) 0 "replication.yaml" []).err = none) ∧
        ((runReplication (demoDeps specABC ["B"] none) 0 "replication.yaml" []).trace = [] →
          (runReplication (demoDeps specABC ["B"] none) 0 "replication.yaml" []).err
            = none)) ∧
      (runReplication (demoDeps specABC ["B"] none) 0 "replication.yaml" []).err.isSome
        = true ∧
      (runReplication (demoDeps specABC [] none) 0 "replication.yaml" []).err.isSome
        = false ∧
      ((runReplication (demoDeps specABC ["B"] (some 0)) 0 "replication.yaml" []).trace.length
          = 0 ∧
        (runReplication (demoDeps specABC ["B"] (some 0)) 0 "replication.yaml" []).err.isSome
          = false) :=
  ⟨by decide,
   runReplication_error_iff_failure (demoDeps specABC ["B"] none) 0 0 0 "replication.yaml" []
     specABC specABC rfl rfl (by decide),
   by decide, by decide, by decide⟩

/-- C5 (checkpoint before each stream): let the resolved order be `pre`
followed by `rest`.  If the loop gets through `pre` and the interruption flag
is set in the world it is then in, `runReplication` makes no further call of
`runTask`: its trace, success count, failure list, reached streams and
returned error are those of the loop over `pre` alone. -/
theorem interruption_checkpoint_before_stream (w w1 w2 : σ) (cfgPath : String)
    (sel : List String) (rep rep2 : ReplicationConfig) (pre rest : List String)
    (hload : d.loadReplicationConfig w cfgPath = (w1, .ok rep))
    (hwild : d.processWildcards w1 rep = (w2, .ok rep2))
    (hsplit : d.streamsOrdered rep2 = pre ++ rest)
    (hpre : (loopBefore d w2 rep2 sel pre).2 = .done)
    (hint : d.interrupted (loopBefore d w2 rep2 sel pre).1.world = true) :
    (runReplication d w cfgPath sel).trace = (loopBefore d w2 rep2 sel pre).1.trace ∧
      (runReplication d w cfgPath sel).succcess = (loopBefore d w2 rep2 sel pre).1.succcess ∧
      (runReplication d w cfgPath sel).failures =
        (loopBefore d w2 rep2 sel pre).1.eG.Errors ∧
      (runReplication d w cfgPath sel).reached = (loopBefore d w2 rep2 sel pre).1.reached ∧
      (runReplication d w cfgPath sel).err = (loopBefore d w2 rep2 sel pre).1.eG.Err := by
  rw [runReplication_loaded d w w1 w2 cfgPath sel rep rep2 hload hwild]
  unfold loopBefore at hpre hint ⊢
  unfold runLoaded
  dsimp only
  rw [finishRun_trace, finishRun_succcess, finishRun_failures, finishRun_reached]
  have happ := replicationLoop_append d (cleanSelectStreams d rep2 sel)
    (streamCount rep2 (cleanSelectStreams d rep2 sel)) pre rest 0
    (initLoopState d w2 rep2 (cleanSelectStreams d rep2 sel))
  rw [hsplit, happ]
  generalize replicationLoop d (cleanSelectStreams d rep2 sel)
    (streamCount rep2 (cleanSelectStreams d rep2 sel)) 0 pre
    (initLoopState d w2 rep2 (cleanSelectStreams d rep2 sel)) = out at hpre hint ⊢
  obtain ⟨st1, ex⟩ := out
  dsimp only at hpre hint
  subst hpre
  dsimp only
  have hst := replicationLoop_interrupted_state d (cleanSelectStreams d rep2 sel)
    (streamCount rep2 (cleanSelectStreams d rep2 sel)) rest (0 + pre.length) st1 hint
  have hex := replicationLoop_interrupted_exit d (cleanSelectStreams d rep2 sel)
    (streamCount rep2 (cleanSelectStreams d rep2 sel)) rest (0 + pre.length) st1 hint
  refine ⟨by rw [hst], by rw [hst], by rw [hst], by rw [hst], ?_⟩
  rw [finishRun_err_of_not_ret _ _ hex, hst]

/-- C5 at a concrete run: streams A, B, C, the flag is set during the
transfer of A; only A is run, and the aggregate is that of A. -/
theorem interruption_checkpoint_before_stream_witness :
    ((demoDeps specABC [] (some 1)).streamsOrdered specABC = ["A"] ++ ["B", "C"] ∧
        (loopBefore (demoDeps specABC [] (some 1)) 0 specABC [] ["A"]).2 = .done ∧
        (demoDeps specABC [] (some 1)).interrupted
          (loopBefore (demoDeps specABC [] (some 1)) 0 specABC [] ["A"]).1.world = true) ∧
      ((runReplication (demoDeps specABC [] (some 1)) 0 "replication.yaml" []).trace =
          (loopBefore (demoDeps specABC [] (some 1)) 0 specABC [] ["A"]).1.trace ∧
        (runReplication (demoDeps specABC [] (some 1)) 0 "replication.yaml" []).succcess =
          (loopBefore (demoDeps specABC [] (some 1)) 0 specABC [] ["A"]).1.succcess ∧
        (runReplication (demoDeps specABC [] (some 1)) 0 "replication.yaml" []).failures =
          (loopBefore (demoDeps specABC [] (some 1)) 0 specABC [] ["A"]).1.eG.Errors ∧
        (runReplication (demoDeps specABC [] (some 1)) 0 "replication.yaml" []).reached =
          (loopBefore (demoDeps specABC [] (some 1)) 0 specABC [] ["A"]).1.reached ∧
        (runReplication (demoDeps specABC [] (some 1)) 0 "replication.yaml" []).err =
          (loopBefore (demoDeps specABC [] (some 1)) 0 specABC [] ["A"]).1.eG.Err) ∧
      (runReplication (demoDeps specABC [] (some 1)) 0 "replication.yaml" []).trace.map
          (fun t => t.name) = ["A"] ∧
      (runReplication (demoDeps specABC [] (some 1)) 0 "replication.yaml" []).succcess = 1 :=
  ⟨⟨rfl, rfl, rfl⟩,
   interruption_checkpoint_before_stream (demoDeps specABC [] (some 1)) 0 0 0
     "replication.yaml" [] specABC specABC ["A"] ["B", "C"] rfl rfl rfl rfl rfl,
   by decide, by decide⟩

/-- C9: the aggregate of `runReplication` is a projection of the calls of
`runTask`: the success count is the number of calls that returned no error,
the failure list holds the errors of the other calls in execution order, and
successes plus failures is the number of calls. -/
theorem runReplication_aggregate_projection (w : σ) (cfgPath : String) (sel : List String) :
    (runReplication d w cfgPath sel).succcess =
        ((runReplication d w cfgPath sel).trace.filter (fun t => t.err.isNone)).length ∧
      (runReplication d w cfgPath sel).failures =
        (runReplication d w cfgPath sel).trace.filterMap (fun t => t.err) ∧
      (runReplication d w cfgPath sel).succcess +
          (runReplication d w cfgPath sel).failures.length =
        (runReplication d w cfgPath sel).trace.length := by
  have key : (runReplication d w cfgPath sel).succcess =
        ((runReplication d w cfgPath sel).trace.filter (fun t => t.err.isNone)).length ∧
      (runReplication d w cfgPath sel).failures =
        (runReplication d w cfgPath sel).trace.filterMap (fun t => t.err) := by
    unfold runReplication
    split
    · exact ⟨rfl, rfl⟩
    · split
      · exact ⟨rfl, rfl⟩
      · exact runLoaded_aggregated d _ _ _
  refine ⟨key.1, key.2, ?_⟩
  rw [key.1, key.2]
  exact trace_split_length _

/-- One pass through the body, without interruption, follows the plan. -/
theorem streamStep_planned (sel : List String) (cnt : Nat)
    (hint : ∀ w, d.interrupted w = false) (i : Nat) (name : String) (rest : List String)
    (st : LoopState σ) :
    ((streamStep d sel cnt i name st).2 = none →
      (streamStep d sel cnt i name st).1.trace.map (fun t => t.name) ++
          plannedNames d sel rest (streamStep d sel cnt i name st).1.replication =
        st.trace.map (fun t => t.name) ++ plannedNames d sel (name :: rest) st.replication) ∧
    ((streamStep d sel cnt i name st).2 ≠ none →
      (streamStep d sel cnt i name st).1.trace.map (fun t => t.name) =
        st.trace.map (fun t => t.name) ++ plannedNames d sel (name :: rest) st.replication) := by
  dsimp only [streamStep, plannedNames]
  rw [if_neg (by rw [hint]; simp)]
  split_ifs with h2 h3 h4
  · simp
  · simp
  · simp
  · split <;> simp

/-- Without interruption the names handed to `runTask` are the planned ones:
they do not depend on the world nor on what the transfers return. -/
theorem replicationLoop_planned (sel : List String) (cnt : Nat)
    (hint : ∀ w, d.interrupted w = false) :
    ∀ (ns : List String) (i : Nat) (st : LoopState σ),
      (replicationLoop d sel cnt i ns st).1.trace.map (fun t => t.name) =
        st.trace.map (fun t => t.name) ++ plannedNames d sel ns st.replication := by
  intro ns
  induction ns with
  | nil => intro i st; simp [replicationLoop, plannedNames]
  | cons name rest ih =>
    intro i st
    have hp := streamStep_planned d sel cnt hint i name rest st
    rw [replicationLoop]
    rcases hs : streamStep d sel cnt i name st with ⟨st1, _ | exit⟩
    · rw [hs] at hp
      dsimp only
      rw [ih (i + 1) st1]
      exact hp.1 rfl
    · rw [hs] at hp
      exact hp.2 (by simp)

theorem IsMatched_perm (l1 l2 : List String) (h : l1.Perm l2) (name : String) :
    IsMatched d l1 name = IsMatched d l2 name := by
  unfold IsMatched
  rw [Bool.eq_iff_iff, List.any_eq_true, List.any_eq_true]
  constructor
  · rintro ⟨x, hx, hm⟩; exact ⟨x, h.mem_iff.1 hx, hm⟩
  · rintro ⟨x, hx, hm⟩; exact ⟨x, h.mem_iff.2 hx, hm⟩

theorem runLoaded_perm (w : σ) (rep : ReplicationConfig) (sel sel2 : List String)
    (h : sel.Perm sel2) : runLoaded d w rep sel2 = runLoaded d w rep sel := by
  have hc : (cleanSelectStreams d rep sel).Perm (cleanSelectStreams d rep sel2) :=
    h.filter _
  have hlen := hc.length_eq
  have hcnt : streamCount rep (cleanSelectStreams d rep sel2) =
      streamCount rep (cleanSelectStreams d rep sel) := by
    unfold streamCount; rw [hlen]
  have hinit : initLoopState d w rep (cleanSelectStreams d rep sel2) =
      initLoopState d w rep (cleanSelectStreams d rep sel) := by
    unfold initLoopState; rw [hcnt]
  unfold runLoaded
  dsimp only
  rw [hcnt, hinit]
  rw [replicationLoop_congr d (cleanSelectStreams d rep sel2) _ (cleanSelectStreams d rep sel)]
  intro name
  unfold passesSelection
  rw [hlen, IsMatched_perm d _ _ hc name]

/-- The `Config` built for a stream carries the name of the stream. -/
theorem streamStep_namesHanded (sel : List String) (cnt i : Nat) (name : String)
    (st : LoopState σ) (h : NamesHanded st) :
    NamesHanded (streamStep d sel cnt i name st).1 := by
  unfold NamesHanded at h ⊢
  dsimp only [streamStep]
  split_ifs with h1 h2 h3 h4
  · exact h
  · exact h
  · exact h
  · exact h
  · split <;>
    · intro t ht
      rcases List.mem_append.1 ht with h5 | h5
      · exact h t h5
      · rw [List.mem_singleton.1 h5]; rfl

/-- The names handed to the transfer engine are the names of the streams the
calls are recorded for. -/
theorem runLoaded_handedNames (w : σ) (rep : ReplicationConfig) (sel : List String) :
    handedNames (runLoaded d w rep sel) =
      (runLoaded d w rep sel).trace.map (fun t => t.name) := by
  have hinv : ∀ t ∈ (runLoaded d w rep sel).trace, t.cfg.StreamName = t.name := by
    unfold runLoaded
    dsimp only
    rw [finishRun_trace]
    exact replicationLoop_preserves d _ _ NamesHanded
      (fun i name st => streamStep_namesHanded d _ _ i name st) _ _ _
      (by intro t ht; simp [initLoopState] at ht)
  unfold handedNames
  exact List.map_congr_left hinv

/-- One pass through the body that goes on to the next name adds to the trace
what the plan says for this name. -/
theorem streamStep_planned_next (sel : List String) (cnt : Nat) (i : Nat) (name : String)
    (rest : List String) (st : LoopState σ) :
    (streamStep d sel cnt i name st).2 = none →
      ∃ x, (streamStep d sel cnt i name st).1.trace.map (fun t => t.name) =
          st.trace.map (fun t => t.name) ++ x ∧
        x ++ plannedNames d sel rest (streamStep d sel cnt i name st).1.replication =
          plannedNames d sel (name :: rest) st.replication := by
  by_cases hi : d.interrupted st.world = true
  · intro h
    simp [streamStep, hi] at h
  · dsimp only [streamStep, plannedNames]
    rw [if_neg hi]
    split_ifs with h2 h3 h4
    · exact fun _ => ⟨[], by simp, by simp⟩
    · intro h; simp at h
    · exact fun _ => ⟨[], by simp, by simp⟩
    · split
      · exact fun _ => ⟨[name], by simp, by simp⟩
      · exact fun _ => ⟨[name], by simp, by simp⟩

/-- A pass through the body that leaves the loop leaves the trace as it is. -/
theorem streamStep_trace_exit (sel : List String) (cnt : Nat) (i : Nat) (name : String)
    (st : LoopState σ) :
    (streamStep d sel cnt i name st).2 ≠ none →
      (streamStep d sel cnt i name st).1.trace = st.trace := by
  dsimp only [streamStep]
  split_ifs with h1 h2 h3 h4
  · simp
  · simp
  · simp
  · simp
  · split <;> simp

/-- Whatever the interruptions, the names handed to `runTask` are an initial
part of the planned ones. -/
theorem replicationLoop_planned_initial (sel : List String) (cnt : Nat) :
    ∀ (ns : List String) (i : Nat) (st : LoopState σ),
      ∃ l, (replicationLoop d sel cnt i ns st).1.trace.map (fun t => t.name) =
          st.trace.map (fun t => t.name) ++ l ∧
        l <+: plannedNames d sel ns st.replication := by
  intro ns
  induction ns with
  | nil => intro i st; exact ⟨[], by simp [replicationLoop], List.nil_prefix⟩
  | cons name rest ih =>
    intro i st
    have hn := streamStep_planned_next d sel cnt i name rest st
    have he := streamStep_trace_exit d sel cnt i name st
    rw [replicationLoop]
    rcases hs : streamStep d sel cnt i name st with ⟨st1, _ | exit⟩
    · rw [hs] at hn
      obtain ⟨x, hx1, hx2⟩ := hn rfl
      obtain ⟨l, hl1, hl2⟩ := ih (i + 1) st1
      dsimp only at hx1 hx2 ⊢
      refine ⟨x ++ l, by rw [hl1, hx1, List.append_assoc], ?_⟩
      rw [← hx2]
      exact (List.prefix_append_right_inj x).2 hl2
    · rw [hs] at he
      have h1 := he (by simp)
      dsimp only at h1 ⊢
      exact ⟨[], by rw [h1]; simp, List.nil_prefix⟩

theorem runLoaded_planned_initial (w : σ) (rep : ReplicationConfig) (sel : List String) :
    handedNames (runLoaded d w rep sel) <+:
      plannedNames d (cleanSelectStreams d rep sel) (d.streamsOrdered rep) rep := by
  rw [runLoaded_handedNames]
  unfold runLoaded
  dsimp only
  rw [finishRun_trace]
  obtain ⟨l, h1, h2⟩ := replicationLoop_planned_initial d (cleanSelectStreams d rep sel)
    (streamCount rep (cleanSelectStreams d rep sel)) (d.streamsOrdered rep) 0
    (initLoopState d w rep (cleanSelectStreams d rep sel))
  rw [h1]
  simpa [initLoopState] using h2

theorem runLoaded_planned (w : σ) (rep : ReplicationConfig) (sel : List String)
    (hint : ∀ u, d.interrupted u = false) :
    handedNames (runLoaded d w rep sel) =
      plannedNames d (cleanSelectStreams d rep sel) (d.streamsOrdered rep) rep := by
  rw [runLoaded_handedNames]
  unfold runLoaded
  dsimp only
  rw [finishRun_trace, replicationLoop_planned d _ _ hint]
  simp [initLoopState]

/-- C10 as stated fails: two runs on the same resolved spec (streams A, B, C)
and the same empty selector list, with the interruption flag set once one
transfer was made, hand over A when started before any transfer and nothing
when started after one. -/
theorem execution_order_cut_by_interruption :
    ((demoDeps specABC [] (some 1)).loadReplicationConfig 0 "replication.yaml"
          = (0, .ok specABC) ∧
        (demoDeps specABC [] (some 1)).loadReplicationConfig 1 "replication.yaml"
          = (1, .ok specABC)) ∧
      handedNames (runReplication (demoDeps specABC [] (some 1)) 0 "replication.yaml" [])
        = ["A"] ∧
      handedNames (runReplication (demoDeps specABC [] (some 1)) 1 "replication.yaml" [])
        = [] :=
  ⟨⟨rfl, rfl⟩, by decide, by decide⟩

/-- C10, amended (execution order): the stream names handed to the transfer
engine, read off the `Config` each call of `runTask` receives, are a
subsequence of the resolved order `StreamsOrdered()`, without repetition when
the resolved names have none; in a given world the run is the same for every
permutation of the selector list; every run on the same resolved spec and
selectors hands over an initial part of one planned sequence that the spec
and the selectors determine, and two such runs hand over the same sequence,
the planned one, when the flag is never set. -/
theorem execution_order_subsequence (w w1 w2 : σ) (cfgPath : String)
    (sel : List String) (rep rep2 : ReplicationConfig)
    (hload : d.loadReplicationConfig w cfgPath = (w1, .ok rep))
    (hwild : d.processWildcards w1 rep = (w2, .ok rep2)) :
    (handedNames (runReplication d w cfgPath sel)).Sublist (d.streamsOrdered rep2) ∧
      ((d.streamsOrdered rep2).Nodup →
        (handedNames (runReplication d w cfgPath sel)).Nodup) ∧
      (∀ sel2, sel.Perm sel2 →
        runReplication d w cfgPath sel2 = runReplication d w cfgPath sel) ∧
      (∀ (v v1 v2 : σ) (rep1 : ReplicationConfig),
        d.loadReplicationConfig v cfgPath = (v1, .ok rep1) →
        d.processWildcards v1 rep1 = (v2, .ok rep2) →
        handedNames (runReplication d v cfgPath sel) <+:
            plannedNames d (cleanSelectStreams d rep2 sel) (d.streamsOrdered rep2) rep2 ∧
          ((∀ u, d.interrupted u = false) →
            handedNames (runReplication d v cfgPath sel) =
              plannedNames d (cleanSelectStreams d rep2 sel) (d.streamsOrdered rep2) rep2 ∧
            handedNames (runReplication d v cfgPath sel) =
              handedNames (runReplication d w cfgPath sel))) := by
  have hsub : (handedNames (runReplication d w cfgPath sel)).Sublist
      (d.streamsOrdered rep2) := by
    rw [runReplication_loaded d w w1 w2 cfgPath sel rep rep2 hload hwild,
      runLoaded_handedNames, runLoaded_traceOfReached]
    exact (((List.filter_sublist _).map Prod.fst).trans
      (runLoaded_reached_initial d w2 rep2 sel).sublist).trans (List.filter_sublist _)
  refine ⟨hsub, fun hnd => hsub.nodup hnd, ?_, ?_⟩
  · intro sel2 hperm
    rw [runReplication_loaded d w w1 w2 cfgPath sel rep rep2 hload hwild,
      runReplication_loaded d w w1 w2 cfgPath sel2 rep rep2 hload hwild]
    exact runLoaded_perm d w2 rep2 sel sel2 hperm
  · intro v v1 v2 rep1 hload2 hwild2
    rw [runReplication_loaded d w w1 w2 cfgPath sel rep rep2 hload hwild,
      runReplication_loaded d v v1 v2 cfgPath sel rep1 rep2 hload2 hwild2]
    refine ⟨runLoaded_planned_initial d v2 rep2 sel, fun hint => ?_⟩
    rw [runLoaded_planned d v2 rep2 sel hint, runLoaded_planned d w2 rep2 sel hint]
    exact ⟨rfl, rfl⟩

/-- C10, amended, at a concrete run: with streams A, B, C, the selector list
[B] and no interruption, the sequence handed over is exactly [B]. -/
theorem execution_order_subsequence_witness :
    ((handedNames (runReplication (demoDeps specABC [] none) 0 "replication.yaml"
          ["B"])).Sublist ((demoDeps specABC [] none).streamsOrdered specABC) ∧
      (((demoDeps specABC [] none).streamsOrdered specABC).Nodup →
        (handedNames (runReplication (demoDeps specABC [] none) 0 "replication.yaml"
          ["B"])).Nodup) ∧
      (∀ sel2, ["B"].Perm sel2 →
        runReplication (demoDeps specABC [] none) 0 "replication.yaml" sel2 =
          runReplication (demoDeps specABC [] none) 0 "replication.yaml" ["B"]) ∧
      (∀ (v v1 v2 : Nat) (rep1 : ReplicationConfig),
        (demoDeps specABC [] none).loadReplicationConfig v "replication.yaml"
          = (v1, .ok rep1) →
        (demoDeps specABC [] none).processWildcards v1 rep1 = (v2, .ok specABC) →
        handedNames (runReplication (demoDeps specABC [] none) v "replication.yaml" ["B"])
            <+: plannedNames (demoDeps specABC [] none)
              (cleanSelectStreams (demoDeps specABC [] none) specABC ["B"])
              ((demoDeps specABC [] none).streamsOrdered specABC) specABC ∧
          ((∀ u, (demoDeps specABC [] none).interrupted u = false) →
            handedNames (runReplication (demoDeps specABC [] none) v "replication.yaml"
                ["B"]) =
              plannedNames (demoDeps specABC [] none)
                (cleanSelectStreams (demoDeps specABC [] none) specABC ["B"])
                ((demoDeps specABC [] none).streamsOrdered specABC) specABC ∧
            handedNames (runReplication (demoDeps specABC [] none) v "replication.yaml"
                ["B"]) =
              handedNames (runReplication (demoDeps specABC [] none) 0 "replication.yaml"
                ["B"])))) ∧
      (demoDeps specABC [] none).streamsOrdered specABC = ["A", "B", "C"] ∧
      handedNames (runReplication (demoDeps specABC [] none) 0 "replication.yaml" ["B"])
        = ["B"] ∧
      plannedNames (demoDeps specABC [] none)
        (cleanSelectStreams (demoDeps specABC [] none) specABC ["B"])
        ((demoDeps specABC [] none).streamsOrdered specABC) specABC = ["B"] :=
  ⟨execution_order_subsequence (demoDeps specABC [] none) 0 0 0 "replication.yaml" ["B"]
     specABC specABC rfl rfl,
   by decide, by decide, by decide⟩

end Claims

/-! ## The claims on the loop of `processRun` -/

section Iterate

variable {σ : Type} (d : Deps σ)

/-- A replication run started with the flag set in every world makes no
call of `runTask`. -/
theorem runReplication_interrupted (hint : ∀ w, d.interrupted w = true) (w : σ)
    (cfgPath : String) (sel : List String) :
    (runReplication d w cfgPath sel).trace = [] := by
  unfold runReplication
  split
  · rfl
  · split
    · rfl
    · unfold runLoaded
      dsimp only
      rw [finishRun_trace, replicationLoop_interrupted_state d _ _ _ _ _ (hint _)]
      rfl

/-- In single-task mode one iteration does not read the interruption flag. -/
theorem runOnce_task_flag (f : σ → Bool) (taskCfgStr : String) (sel : List String)
    (st : ProcessState σ) :
    runOnce { d with interrupted := f } "" taskCfgStr sel st =
      runOnce d "" taskCfgStr sel st := by
  simp [runOnce]

/-- C6 as stated fails: with the interruption signalled from the start, a
single-task run with count 3 still performs its 3 iterations, one transfer
each, and a replication run with count "infinite" is still iterating after 5
iterations. -/
theorem processRun_ignores_interruption :
    (∀ w, (demoDeps specABC [] (some 0)).interrupted w = true) ∧
      ((processRunLoop (demoDeps specABC [] (some 0)) "" "" [] 3 10
            { world := 0, cfg := {} }).returned = true ∧
        (processRunLoop (demoDeps specABC [] (some 0)) "" "" [] 3 10
            { world := 0, cfg := {} }).final.iterations.map Iteration.transfers
          = [1, 1, 1]) ∧
      ((processRunLoop (demoDeps specABC [] (some 0)) "replication.yaml" "" [] (-1) 5
            { world := 0, cfg := {} }).returned = false ∧
        (processRunLoop (demoDeps specABC [] (some 0)) "replication.yaml" "" [] (-1) 5
            { world := 0, cfg := {} }).final.iterations.length = 5) :=
  ⟨fun w => by simp [demoDeps], by decide, by decide⟩

/-- C6, amended: the loop of `processRun` has no interruption checkpoint.  In
single-task mode it behaves the same whatever the flag is; in replication
mode, with the flag set in every world, the iterations it starts make no call
of `runTask`, the stream loop breaking at its first checkpoint. -/
theorem processRun_interruption_only_in_replication (taskCfgStr : String)
    (sel : List String) (iterate : Int) (fuel : Nat) (st : ProcessState σ) :
    (∀ f : σ → Bool,
        processRunLoop { d with interrupted := f } "" taskCfgStr sel iterate fuel st =
          processRunLoop d "" taskCfgStr sel iterate fuel st) ∧
      (∀ cfgPath : String, cfgPath ≠ "" → (∀ w, d.interrupted w = true) →
        (∀ it ∈ st.iterations, it.transfers = 0) →
        ∀ it ∈ (processRunLoop d cfgPath taskCfgStr sel iterate fuel st).final.iterations,
          it.transfers = 0) := by
  constructor
  · intro f
    induction fuel generalizing st with
    | zero => rfl
    | succ n ih =>
      rw [processRunLoop, processRunLoop, runOnce_task_flag]
      dsimp only
      split
      · rfl
      · split_ifs
        · rfl
        · exact ih _
  · intro cfgPath hne hint
    induction fuel generalizing st with
    | zero => intro h; exact h
    | succ n ih =>
      intro h
      have hiter : ∀ it ∈ (runOnce d cfgPath taskCfgStr sel st).1.iterations,
          it.transfers = 0 := by
        unfold runOnce
        rw [if_pos hne]
        dsimp only
        have h0 := runReplication_interrupted d hint st.world cfgPath sel
        split
        · intro it hit
          rcases List.mem_append.1 hit with h1 | h1
          · exact h it h1
          · rw [List.mem_singleton.1 h1]; simp [Iteration.transfers, h0]
        · intro it hit
          rcases List.mem_append.1 hit with h1 | h1
          · exact h it h1
          · rw [List.mem_singleton.1 h1]; simp [Iteration.transfers, h0]
      rw [processRunLoop]
      dsimp only
      split
      · exact hiter
      · split_ifs
        · exact hiter
        · exact ih _ hiter

/-- C7 as stated fails: in replication mode with count 2, the failed transfer
of B lets A, B and C run in the first iteration, but `processRun` then returns
an error after that one iteration, without sleeping and without a second
iteration; the same happens with count "infinite". -/
theorem processRun_stops_on_stream_failure :
    ((processRunLoop (demoDeps specABC ["B"] none) "replication.yaml" "" [] 2 10
          { world := 0, cfg := {} }).returned = true ∧
        (processRunLoop (demoDeps specABC ["B"] none) "replication.yaml" "" [] 2 10
          { world := 0, cfg := {} }).err.isSome = true ∧
        (processRunLoop (demoDeps specABC ["B"] none) "replication.yaml" "" [] 2 10
          { world := 0, cfg := {} }).final.iterations.map Iteration.transfers = [3] ∧
        (processRunLoop (demoDeps specABC ["B"] none) "replication.yaml" "" [] 2 10
          { world := 0, cfg := {} }).final.sleeps = 0) ∧
      ((processRunLoop (demoDeps specABC ["B"] none) "replication.yaml" "" [] (-1) 10
          { world := 0, cfg := {} }).returned = true ∧
        (processRunLoop (demoDeps specABC ["B"] none) "replication.yaml" "" [] (-1) 10
          { world := 0, cfg := {} }).final.iterations.length = 1) := by
  decide

/-- C7, amended: in replication mode, when `runReplication` returns an error
(a structural one, or the error group of the failed transfers) `processRun`
returns that error wrapped and starts no further iteration; when it returns
nil and the count is not reached, the loop sleeps and starts the next
iteration. -/
theorem processRun_replication_iteration (cfgPath taskCfgStr : String) (sel : List String)
    (iterate : Int) (fuel : Nat) (st : ProcessState σ) (hne : cfgPath ≠ "") :
    (∀ e, (runReplication d st.world cfgPath sel).err = some e →
        processRunLoop d cfgPath taskCfgStr sel iterate (fuel + 1) st =
          { returned := true,
            err := some (.wrap e
              "failure running replication (see docs @ https://docs.slingdata.io/sling-cli)"),
            final := { st with
              world := (runReplication d st.world cfgPath sel).world,
              iterations := st.iterations ++
                [.replication (runReplication d st.world cfgPath sel)] } }) ∧
      ((runReplication d st.world cfgPath sel).err = none →
        ¬(0 < iterate ∧ iterate ≤ st.itNumber) →
        processRunLoop d cfgPath taskCfgStr sel iterate (fuel + 1) st =
          processRunLoop d cfgPath taskCfgStr sel iterate fuel
            { st with
              world := d.sleep (runReplication d st.world cfgPath sel).world,
              iterations := st.iterations ++
                [.replication (runReplication d st.world cfgPath sel)],
              itNumber := st.itNumber + 1,
              sleeps := st.sleeps + 1 }) := by
  constructor
  · intro e he
    rw [processRunLoop]
    unfold runOnce
    rw [if_pos hne]
    dsimp only
    rw [he]
  · intro he hcount
    rw [processRunLoop]
    unfold runOnce
    rw [if_pos hne]
    dsimp only
    rw [he]
    dsimp only
    rw [if_neg hcount]

/-- C7, amended, at concrete runs: with the transfer of B failing the first
iteration is the last; with no failure and count 2 there are two iterations
and one sleep. -/
theorem processRun_replication_iteration_witness :
    ("replication.yaml" ≠ "") ∧
      ((∀ e, (runReplication (demoDeps specABC ["B"] none) 0 "replication.yaml" []).err
            = some e →
          processRunLoop (demoDeps specABC ["B"] none) "replication.yaml" "" [] 2 (9 + 1)
              { world := 0, cfg := {} } =
            { returned := true,
              err := some (.wrap e
                "failure running replication (see docs @ https://docs.slingdata.io/sling-cli)"),
              final := { ({ world := 0, cfg := {} } : ProcessState Nat) with
                world :=
                  (runReplication (demoDeps specABC ["B"] none) 0 "replication.yaml" []).world,
                iterations := [] ++
                  [.replication
                    (runReplication (demoDeps specABC ["B"] none) 0 "replication.yaml"
                      [])] } }) ∧
        ((runReplication (demoDeps specABC ["B"] none) 0 "replication.yaml" []).err = none →
          ¬(0 < (2 : Int) ∧ (2 : Int) ≤ 1) →
          processRunLoop (demoDeps specABC ["B"] none) "replication.yaml" "" [] 2 (9 + 1)
              { world := 0, cfg := {} } =
            processRunLoop (demoDeps specABC ["B"] none) "replication.yaml" "" [] 2 9
              { ({ world := 0, cfg := {} } : ProcessState Nat) with
                world := (demoDeps specABC ["B"] none).sleep
                  (runReplication (demoDeps specABC ["B"] none) 0 "replication.yaml" []).world,
                iterations := [] ++
                  [.replication
                    (runReplication (demoDeps specABC ["B"] none) 0 "replication.yaml" [])],
                itNumber := 1 + 1,
                sleeps := 0 + 1 })) ∧
      (runReplication (demoDeps specABC ["B"] none) 0 "replication.yaml" []).err.isSome
        = true ∧
      ((processRunLoop (demoDeps specABC [] none) "replication.yaml" "" [] 2 10
          { world := 0, cfg := {} }).final.iterations.length = 2 ∧
        (processRunLoop (demoDeps specABC [] none) "replication.yaml" "" [] 2 10
          { world := 0, cfg := {} }).final.sleeps = 1 ∧
        (processRunLoop (demoDeps specABC [] none) "replication.yaml" "" [] 2 10
          { world := 0, cfg := {} }).err.isNone = true) :=
  ⟨by decide,
   processRun_replication_iteration (demoDeps specABC ["B"] none) "replication.yaml" "" []
     2 9 { world := 0, cfg := {} } (by decide),
   by decide, by decide⟩

/-- C6, amended, at concrete runs: the single-task loop with count 3 gives the
same result with the flag always set and with the flag never set; the
replication loop with count "infinite" and the flag always set makes no
transfer in the iterations it starts. -/
theorem processRun_interruption_only_in_replication_witness :
    processRunLoop { demoDeps specABC [] (some 0) with interrupted := fun _ => false }
          "" "" [] 3 10 { world := 0, cfg := {} } =
        processRunLoop (demoDeps specABC [] (some 0)) "" "" [] 3 10
          { world := 0, cfg := {} } ∧
      ∀ it ∈ (processRunLoop (demoDeps specABC [] (some 0)) "replication.yaml" "" [] (-1) 5
          { world := 0, cfg := {} }).final.iterations, it.transfers = 0 :=
  ⟨(processRun_interruption_only_in_replication (demoDeps specABC [] (some 0)) "" [] 3 10
      { world := 0, cfg := {} }).1 (fun _ => false),
   (processRun_interruption_only_in_replication (demoDeps specABC [] (some 0)) "" [] (-1) 5
      { world := 0, cfg := {} }).2 "replication.yaml" (by decide)
      (fun w => by simp [demoDeps]) (fun it hit => absurd hit (List.not_mem_nil it))⟩

end Iterate

/-! ## The claims on `parsePayload` -/

section Payload

/-- C8 as stated fails: the JSON payload with the key `a:b` is accepted by the
strict parse and returned without validation, so `parsePayload(payload, true)`
returns no error and a mapping with a key that contains a colon. -/
theorem parsePayload_json_key_with_colon :
    (parsePayload demoParsers "\x7b\"a:b\":1\x7d" true).2.isNone = true ∧
      GoMap.keys (parsePayload demoParsers "\x7b\"a:b\":1\x7d" true).1 = ["a:b"] ∧
      hasColon "a:b" = true := by
  decide

/-- C8, amended: when `parsePayload(payload, true)` returns no error, either
the strict JSON parse accepted the trimmed, non-empty payload, and the result
is its mapping as it is, or no key of the returned mapping contains a colon.
So with validation a colon-bearing key is rejected whenever the payload is
not JSON. -/
theorem parsePayload_validated_keys (p : Parsers) (payload : String)
    (hok : (parsePayload p payload true).2 = none) :
    (trimSpace payload ≠ "" ∧ (p.unmarshalMap (trimSpace payload)).2 = none ∧
        (parsePayload p payload true).1 = (p.unmarshalMap (trimSpace payload)).1) ∨
      ∀ k ∈ GoMap.keys (parsePayload p payload true).1, hasColon k = false := by
  by_cases h0 : trimSpace payload = ""
  · right
    intro k hk
    simp [parsePayload, h0, GoMap.keys] at hk
  · cases hj : (p.unmarshalMap (trimSpace payload)).2 with
    | none =>
      left
      refine ⟨h0, rfl, ?_⟩
      simp [parsePayload, h0, hj]
    | some e =>
      right
      cases hy : (p.yamlUnmarshal (trimSpace payload) (p.unmarshalMap (trimSpace payload)).1).2 with
      | some e2 => simp [parsePayload, h0, hj, hy] at hok
      | none =>
        cases hf : (GoMap.keys
            (p.yamlUnmarshal (trimSpace payload) (p.unmarshalMap (trimSpace payload)).1).1).find?
            hasColon with
        | some k => simp [parsePayload, h0, hj, hy, hf] at hok
        | none =>
          intro k hk
          simp only [parsePayload, h0, hj, hy, hf, if_false, if_true] at hk
          have := List.find?_eq_none.1 hf k hk
          simpa using this

/-- C8, amended, on the payloads of `TestOptions`: the inline map without a
space after the colon is rejected, the same map with the space is accepted
and yields the key `use_bulk` with value false. -/
theorem parsePayload_validated_keys_witness :
    ((parsePayload demoParsers "\x7buse_bulk: false\x7d" true).2 = none) ∧
      ((trimSpace "\x7buse_bulk: false\x7d" ≠ "" ∧
          (demoParsers.unmarshalMap (trimSpace "\x7buse_bulk: false\x7d")).2 = none ∧
          (parsePayload demoParsers "\x7buse_bulk: false\x7d" true).1 =
            (demoParsers.unmarshalMap (trimSpace "\x7buse_bulk: false\x7d")).1) ∨
        ∀ k ∈ GoMap.keys (parsePayload demoParsers "\x7buse_bulk: false\x7d" true).1,
          hasColon k = false) ∧
      (parsePayload demoParsers "\x7buse_bulk: false\x7d" true).1 =
        some [("use_bulk", .bool false)] ∧
      (parsePayload demoParsers "\x7buse_bulk:false\x7d" true).2.isSome = true ∧
      (parsePayload demoParsers "use_bulk:false" true).2.isSome = true ∧
      (parsePayload demoParsers "." true).2.isSome = true :=
  ⟨rfl, parsePayload_validated_keys demoParsers "\x7buse_bulk: false\x7d" rfl,
   by decide, by decide, by decide, by decide⟩

end Payload

/-! ## Disabled streams and missing objects -/

section Abort

variable {σ : Type} (d : Deps σ)

theorem streamStep_noSummary (sel : List String) (cnt i : Nat) (name : String)
    (st : LoopState σ) (h : NoSummary st) :
    NoSummary (streamStep d sel cnt i name st).1 := by
  unfold NoSummary at h ⊢
  dsimp only [streamStep]
  split_ifs with h1 h2 h3 h4
  · exact h
  · intro a b; simp [h a b]
  · exact h
  · intro a b; simp [h a b]
  · split <;> (intro a b; simp [h a b])

theorem replicationLoop_noSummary (sel : List String) (cnt : Nat) (ns : List String)
    (i : Nat) (st : LoopState σ) (h : NoSummary st) :
    NoSummary (replicationLoop d sel cnt i ns st).1 :=
  replicationLoop_preserves d sel cnt NoSummary (streamStep_noSummary d sel cnt) ns i st h

/-- As long as the body does not return, every reached stream has an object. -/
theorem streamStep_reachedWithObject (sel : List String) (cnt i : Nat) (name : String)
    (st : LoopState σ) (h : ReachedWithObject st) :
    (∀ e, (streamStep d sel cnt i name st).2 ≠ some (.ret e)) →
      ReachedWithObject (streamStep d sel cnt i name st).1 := by
  unfold ReachedWithObject at h ⊢
  dsimp only [streamStep]
  split_ifs with h1 h2 h3 h4
  · exact fun _ => h
  · exact fun _ => h
  · intro hne; exact absurd rfl (hne missingObject)
  · intro _ r hr
    rcases List.mem_append.1 hr with h5 | h5
    · exact h r h5
    · rw [List.mem_singleton.1 h5]; exact h3
  · split <;>
    · intro _ r hr
      rcases List.mem_append.1 hr with h5 | h5
      · exact h r h5
      · rw [List.mem_singleton.1 h5]; exact h3

theorem replicationLoop_reachedWithObject (sel : List String) (cnt : Nat) :
    ∀ (ns : List String) (i : Nat) (st : LoopState σ), ReachedWithObject st →
      (∀ e, (replicationLoop d sel cnt i ns st).2 ≠ .ret e) →
      ReachedWithObject (replicationLoop d sel cnt i ns st).1 := by
  intro ns
  induction ns with
  | nil => intro i st h _; simpa [replicationLoop] using h
  | cons name rest ih =>
    intro i st h
    have hs1 := streamStep_reachedWithObject d sel cnt i name st h
    unfold replicationLoop
    rcases hs : streamStep d sel cnt i name st with ⟨st1, _ | exit⟩
    · rw [hs] at hs1
      exact ih (i + 1) st1 (hs1 (by simp))
    · rw [hs] at hs1
      intro hne
      exact hs1 (fun e he => hne e (by simpa using he))

/-- The body at a stream that is reached and has no object: it returns the
missing-object error and leaves world, trace and aggregate as they are. -/
theorem streamStep_missing_object (sel : List String) (cnt i : Nat) (name : String)
    (st : LoopState σ) (hint : d.interrupted st.world = false)
    (hsel : passesSelection d sel name = true)
    (hobj : (mergedStream d st name).Object = "") :
    (streamStep d sel cnt i name st).2 = some (.ret missingObject) ∧
      (streamStep d sel cnt i name st).1.trace = st.trace ∧
      (streamStep d sel cnt i name st).1.succcess = st.succcess ∧
      (streamStep d sel cnt i name st).1.eG = st.eG ∧
      (streamStep d sel cnt i name st).1.log = st.log ∧
      (streamStep d sel cnt i name st).1.world = st.world ∧
      (streamStep d sel cnt i name st).1.reached =
        st.reached ++ [(name, mergedStream d st name)] := by
  have hs2 : (decide (0 < sel.length) && !IsMatched d sel name) = false := by
    unfold passesSelection at hsel
    cases hX : (decide (0 < sel.length) && !IsMatched d sel name)
    · rfl
    · rw [hX] at hsel; exact absurd hsel (by decide)
  unfold mergedStream at hobj ⊢
  dsimp only [streamStep]
  rw [if_neg (by rw [hint]; simp), if_neg (by rw [hs2]; simp), if_pos hobj]
  exact ⟨rfl, rfl, rfl, rfl, rfl, rfl, rfl⟩

theorem streamStep_disabledLogged (sel : List String) (cnt i : Nat) (name : String)
    (st : LoopState σ) (h : DisabledLogged cnt st) :
    DisabledLogged cnt (streamStep d sel cnt i name st).1 := by
  unfold DisabledLogged at h ⊢
  dsimp only [streamStep]
  split_ifs with h1 h2 h3 h4
  · exact h
  · intro r hr ho hd
    obtain ⟨c, hc⟩ := h r hr ho hd
    exact ⟨c, List.mem_append_left _ hc⟩
  · intro r hr ho hd
    rcases List.mem_append.1 hr with h5 | h5
    · exact h r h5 ho hd
    · rw [List.mem_singleton.1 h5] at ho; exact absurd h3 ho
  · intro r hr ho hd
    rcases List.mem_append.1 hr with h5 | h5
    · obtain ⟨c, hc⟩ := h r h5 ho hd
      exact ⟨c, List.mem_append_left _ hc⟩
    · rw [List.mem_singleton.1 h5]
      exact ⟨st.counter + 1, List.mem_append_right _ (List.mem_singleton.2 rfl)⟩
  · split <;>
    · intro r hr ho hd
      rcases List.mem_append.1 hr with h5 | h5
      · obtain ⟨c, hc⟩ := h r h5 ho hd
        exact ⟨c, List.mem_append_left _ hc⟩
      · rw [List.mem_singleton.1 h5] at hd; exact absurd hd h4

theorem runLoaded_disabledLogged (w : σ) (rep : ReplicationConfig) (sel : List String) :
    ∀ r ∈ (runLoaded d w rep sel).reached, r.2.Object ≠ "" → r.2.Disabled = true →
      ∃ c, LogLine.skipDisabled c (streamCount rep (cleanSelectStreams d rep sel)) r.1 ∈
        (runLoaded d w rep sel).log := by
  have hinv := replicationLoop_preserves d (cleanSelectStreams d rep sel)
    (streamCount rep (cleanSelectStreams d rep sel))
    (DisabledLogged (streamCount rep (cleanSelectStreams d rep sel)))
    (fun i name st => streamStep_disabledLogged d _ _ i name st) (d.streamsOrdered rep) 0
    (initLoopState d w rep (cleanSelectStreams d rep sel))
    (by intro r hr; simp [initLoopState] at hr)
  unfold runLoaded
  dsimp only
  rw [finishRun_reached]
  intro r hr ho hd
  obtain ⟨c, hc⟩ := hinv r hr ho hd
  refine ⟨c, ?_⟩
  unfold finishRun
  split
  · exact hc
  · exact List.mem_append_left _ hc

end Abort

section Claims2

variable {σ : Type} (d : Deps σ)

/-- C11: a stream that the loop of `runReplication` reaches, that is marked
disabled and has a target object, belongs to the resolved order the loop
walks and has its skip line in the log, but is not handed to `runTask` (the
resolved names being distinct) and is counted neither as a success nor as a
failure: successes plus failures is the number of reached streams that have
an object and are not disabled. -/
theorem disabled_stream_not_invoked (w w1 w2 : σ) (cfgPath : String)
    (sel : List String) (rep rep2 : ReplicationConfig)
    (hload : d.loadReplicationConfig w cfgPath = (w1, .ok rep))
    (hwild : d.processWildcards w1 rep = (w2, .ok rep2))
    (r : String × ReplicationStreamConfig)
    (hr : r ∈ (runReplication d w cfgPath sel).reached)
    (hdis : r.2.Disabled = true) (hobj : r.2.Object ≠ "") :
    r.1 ∈ d.streamsOrdered rep2 ∧
      (∃ c, LogLine.skipDisabled c (streamCount rep2 (cleanSelectStreams d rep2 sel)) r.1 ∈
        (runReplication d w cfgPath sel).log) ∧
      ((d.streamsOrdered rep2).Nodup →
        r.1 ∉ (runReplication d w cfgPath sel).trace.map (fun t => t.name)) ∧
      runnable r = false ∧
      (runReplication d w cfgPath sel).succcess +
          (runReplication d w cfgPath sel).failures.length =
        ((runReplication d w cfgPath sel).reached.filter runnable).length := by
  rw [runReplication_loaded d w w1 w2 cfgPath sel rep rep2 hload hwild] at hr ⊢
  have hnames := runLoaded_reached_initial d w2 rep2 sel
  have hrun : runnable r = false := by simp [runnable, hdis]
  refine ⟨?_, runLoaded_disabledLogged d w2 rep2 sel r hr hobj hdis, ?_, hrun, ?_⟩
  · have h1 : r.1 ∈ (runLoaded d w2 rep2 sel).reached.map Prod.fst :=
      List.mem_map.2 ⟨r, hr, rfl⟩
    exact (List.filter_sublist _).subset (hnames.subset h1)
  · intro hnd hmem
    rw [runLoaded_traceOfReached] at hmem
    obtain ⟨r2, hr2, heq⟩ := List.mem_map.1 hmem
    obtain ⟨hr2mem, hr2run⟩ := List.mem_filter.1 hr2
    have hnd2 : ((runLoaded d w2 rep2 sel).reached.map Prod.fst).Nodup :=
      hnames.sublist.nodup (hnd.sublist (List.filter_sublist _))
    have := List.inj_on_of_nodup_map hnd2 hr2mem hr heq
    rw [this, hrun] at hr2run
    exact absurd hr2run (by decide)
  · have hagg := runLoaded_aggregated d w2 rep2 sel
    have hlen := congrArg List.length (runLoaded_traceOfReached d w2 rep2 sel)
    rw [List.length_map, List.length_map] at hlen
    rw [← hlen, hagg.1, hagg.2]
    exact trace_split_length _

/-- C11 at a concrete run: B is disabled and has an object; it is reached and
stays in the resolved order, A and C are run, B is not, and the aggregate is
2 successes and no failure. -/
theorem disabled_stream_not_invoked_witness :
    ((("B", ({ Object := "b", Disabled := true } : ReplicationStreamConfig)) ∈
          (runReplication (demoDeps specDisabledB [] none) 0 "replication.yaml" []).reached) ∧
        ({ Object := "b", Disabled := true } : ReplicationStreamConfig).Disabled = true ∧
        ({ Object := "b", Disabled := true } : ReplicationStreamConfig).Object ≠ "") ∧
      ("B" ∈ (demoDeps specDisabledB [] none).streamsOrdered specDisabledB ∧
        (∃ c, LogLine.skipDisabled c
            (streamCount specDisabledB
              (cleanSelectStreams (demoDeps specDisabledB [] none) specDisabledB [])) "B" ∈
          (runReplication (demoDeps specDisabledB [] none) 0 "replication.yaml" []).log) ∧
        (((demoDeps specDisabledB [] none).streamsOrdered specDisabledB).Nodup →
          "B" ∉ (runReplication (demoDeps specDisabledB [] none) 0 "replication.yaml"
            []).trace.map (fun t => t.name)) ∧
        runnable ("B", ({ Object := "b", Disabled := true } : ReplicationStreamConfig))
          = false ∧
        (runReplication (demoDeps specDisabledB [] none) 0 "replication.yaml" []).succcess +
            (runReplication (demoDeps specDisabledB [] none) 0 "replication.yaml"
              []).failures.length =
          ((runReplication (demoDeps specDisabledB [] none) 0 "replication.yaml"
            []).reached.filter runnable).length) ∧
      (runReplication (demoDeps specDisabledB [] none) 0 "replication.yaml" []).trace.map
          (fun t => t.name) = ["A", "C"] ∧
      (runReplication (demoDeps specDisabledB [] none) 0 "replication.yaml" []).succcess = 2 ∧
      (runReplication (demoDeps specDisabledB [] none) 0 "replication.yaml" []).failures.length
        = 0 :=
  ⟨⟨by decide, rfl, by decide⟩,
   disabled_stream_not_invoked (demoDeps specDisabledB [] none) 0 0 0 "replication.yaml" []
     specDisabledB specDisabledB rfl rfl
     ("B", { Object := "b", Disabled := true }) (by decide) rfl (by decide),
   by decide, by decide, by decide⟩

/-- C12 (a missing object is fatal): let the resolved order be `pre`, then
`name`, then `rest`.  If the loop gets through `pre`, the flag is unset, and
`name` passes the selection test and has an empty object after the defaults
are merged, then `runReplication` returns the missing-object error and its
calls of `runTask` are those made for `pre`: there is none for `name` and
none for the streams of `rest`. -/
theorem missing_object_is_fatal (w w1 w2 : σ) (cfgPath : String)
    (sel : List String) (rep rep2 : ReplicationConfig) (pre : List String) (name : String)
    (rest : List String)
    (hload : d.loadReplicationConfig w cfgPath = (w1, .ok rep))
    (hwild : d.processWildcards w1 rep = (w2, .ok rep2))
    (hsplit : d.streamsOrdered rep2 = pre ++ name :: rest)
    (hpre : (loopBefore d w2 rep2 sel pre).2 = .done)
    (hint : d.interrupted (loopBefore d w2 rep2 sel pre).1.world = false)
    (hsel : passesSelection d (cleanSelectStreams d rep2 sel) name = true)
    (hobj : (mergedStream d (loopBefore d w2 rep2 sel pre).1 name).Object = "") :
    (runReplication d w cfgPath sel).err = some missingObject ∧
      (runReplication d w cfgPath sel).trace = (loopBefore d w2 rep2 sel pre).1.trace ∧
      (runReplication d w cfgPath sel).world = (loopBefore d w2 rep2 sel pre).1.world := by
  rw [runReplication_loaded d w w1 w2 cfgPath sel rep rep2 hload hwild]
  unfold loopBefore at hpre hint hobj ⊢
  unfold runLoaded
  dsimp only
  have happ := replicationLoop_append d (cleanSelectStreams d rep2 sel)
    (streamCount rep2 (cleanSelectStreams d rep2 sel)) pre (name :: rest) 0
    (initLoopState d w2 rep2 (cleanSelectStreams d rep2 sel))
  rw [hsplit, happ]
  generalize replicationLoop d (cleanSelectStreams d rep2 sel)
    (streamCount rep2 (cleanSelectStreams d rep2 sel)) 0 pre
    (initLoopState d w2 rep2 (cleanSelectStreams d rep2 sel)) = out at hpre hint hobj ⊢
  obtain ⟨st1, ex⟩ := out
  dsimp only at hpre hint hobj
  subst hpre
  dsimp only
  have hm := streamStep_missing_object d (cleanSelectStreams d rep2 sel)
    (streamCount rep2 (cleanSelectStreams d rep2 sel)) (0 + pre.length) name st1 hint hsel hobj
  rw [replicationLoop]
  rcases hs : streamStep d (cleanSelectStreams d rep2 sel)
    (streamCount rep2 (cleanSelectStreams d rep2 sel)) (0 + pre.length) name st1
    with ⟨st2, _ | exit⟩
  · rw [hs] at hm
    exact absurd hm.1 (by simp)
  · rw [hs] at hm
    obtain ⟨h1, h2, _, _, _, h3, _⟩ := hm
    dsimp only at h1 h2 h3 ⊢
    have hex : exit = .ret missingObject := by simpa using h1
    subst hex
    exact ⟨rfl, h2, h3⟩

/-- C12 at a concrete run: A (which fails), C, then B without object, then D;
the run returns the missing-object error, A and C were run, B and D are not. -/
theorem missing_object_is_fatal_witness :
    ((demoDeps specNoObjectLate ["A"] none).streamsOrdered specNoObjectLate
          = ["A", "C"] ++ "B" :: ["D"] ∧
        (loopBefore (demoDeps specNoObjectLate ["A"] none) 0 specNoObjectLate []
          ["A", "C"]).2 = .done ∧
        (demoDeps specNoObjectLate ["A"] none).interrupted
          (loopBefore (demoDeps specNoObjectLate ["A"] none) 0 specNoObjectLate []
            ["A", "C"]).1.world = false ∧
        passesSelection (demoDeps specNoObjectLate ["A"] none)
          (cleanSelectStreams (demoDeps specNoObjectLate ["A"] none) specNoObjectLate [])
          "B" = true ∧
        (mergedStream (demoDeps specNoObjectLate ["A"] none)
          (loopBefore (demoDeps specNoObjectLate ["A"] none) 0 specNoObjectLate []
            ["A", "C"]).1 "B").Object = "") ∧
      ((runReplication (demoDeps specNoObjectLate ["A"] none) 0 "replication.yaml" []).err
          = some missingObject ∧
        (runReplication (demoDeps specNoObjectLate ["A"] none) 0 "replication.yaml" []).trace
          = (loopBefore (demoDeps specNoObjectLate ["A"] none) 0 specNoObjectLate []
            ["A", "C"]).1.trace ∧
        (runReplication (demoDeps specNoObjectLate ["A"] none) 0 "replication.yaml" []).world
          = (loopBefore (demoDeps specNoObjectLate ["A"] none) 0 specNoObjectLate []
            ["A", "C"]).1.world) ∧
      (runReplication (demoDeps specNoObjectLate ["A"] none) 0 "replication.yaml"
          []).trace.map (fun t => t.name) = ["A", "C"] :=
  ⟨⟨rfl, rfl, rfl, rfl, rfl⟩,
   missing_object_is_fatal (demoDeps specNoObjectLate ["A"] none) 0 0 0 "replication.yaml" []
     specNoObjectLate specNoObjectLate ["A", "C"] "B" ["D"] rfl rfl rfl rfl rfl rfl rfl,
   by decide⟩

/-- C18: when a reached stream has an empty object, `runReplication` returns
the missing-object error itself, not the error group of the failures captured
so far, and its log holds no completion summary; when every reached stream
has an object it returns the error of the error group and logs the summary.
Only streams that pass the selection test are reached, and the body skips a
stream that fails the test without looking at its object. -/
theorem missing_object_error_alone (w w1 w2 : σ) (cfgPath : String)
    (sel : List String) (rep rep2 : ReplicationConfig)
    (hload : d.loadReplicationConfig w cfgPath = (w1, .ok rep))
    (hwild : d.processWildcards w1 rep = (w2, .ok rep2)) :
    ((∃ r ∈ (runReplication d w cfgPath sel).reached, r.2.Object = "") →
        (runReplication d w cfgPath sel).err = some missingObject ∧
        (∀ es, (runReplication d w cfgPath sel).err ≠ some (.group es)) ∧
        (∀ a b, LogLine.completed a b ∉ (runReplication d w cfgPath sel).log)) ∧
      ((∀ r ∈ (runReplication d w cfgPath sel).reached, r.2.Object ≠ "") →
        (runReplication d w cfgPath sel).err =
          (ErrorGroup.mk (runReplication d w cfgPath sel).failures).Err ∧
        LogLine.completed (runReplication d w cfgPath sel).succcess
            (runReplication d w cfgPath sel).failures.length ∈
          (runReplication d w cfgPath sel).log) ∧
      (∀ r ∈ (runReplication d w cfgPath sel).reached,
        passesSelection d (cleanSelectStreams d rep2 sel) r.1 = true) ∧
      (∀ (cnt i : Nat) (name : String) (st : LoopState σ),
        d.interrupted st.world = false →
        passesSelection d (cleanSelectStreams d rep2 sel) name = false →
        (streamStep d (cleanSelectStreams d rep2 sel) cnt i name st).2 = none ∧
        (streamStep d (cleanSelectStreams d rep2 sel) cnt i name st).1.reached
          = st.reached) := by
  rw [runReplication_loaded d w w1 w2 cfgPath sel rep rep2 hload hwild]
  refine ⟨?_, ?_, ?_, ?_⟩
  · rintro ⟨r, hr, hobj⟩
    unfold runLoaded at hr ⊢
    dsimp only at hr ⊢
    rw [finishRun_reached] at hr
    have hret := replicationLoop_ret d (cleanSelectStreams d rep2 sel)
      (streamCount rep2 (cleanSelectStreams d rep2 sel)) (d.streamsOrdered rep2) 0
      (initLoopState d w2 rep2 (cleanSelectStreams d rep2 sel))
    have hwo := replicationLoop_reachedWithObject d (cleanSelectStreams d rep2 sel)
      (streamCount rep2 (cleanSelectStreams d rep2 sel)) (d.streamsOrdered rep2) 0
      (initLoopState d w2 rep2 (cleanSelectStreams d rep2 sel))
      (by intro x hx; simp [initLoopState] at hx)
    have hns := replicationLoop_noSummary d (cleanSelectStreams d rep2 sel)
      (streamCount rep2 (cleanSelectStreams d rep2 sel)) (d.streamsOrdered rep2) 0
      (initLoopState d w2 rep2 (cleanSelectStreams d rep2 sel))
      (by intro a b; simp [initLoopState])
    generalize replicationLoop d (cleanSelectStreams d rep2 sel)
      (streamCount rep2 (cleanSelectStreams d rep2 sel)) 0 (d.streamsOrdered rep2)
      (initLoopState d w2 rep2 (cleanSelectStreams d rep2 sel)) = out at hr hret hwo hns ⊢
    obtain ⟨st, ex⟩ := out
    cases ex with
    | done => exact absurd hobj (hwo (by simp) r hr)
    | brk => exact absurd hobj (hwo (by simp) r hr)
    | ret e =>
      obtain ⟨he, _⟩ := hret e rfl
      subst he
      refine ⟨rfl, ?_, hns⟩
      intro es
      simp [finishRun, missingObject]
  · intro hall
    unfold runLoaded at hall ⊢
    dsimp only at hall ⊢
    rw [finishRun_reached] at hall
    have hret := replicationLoop_ret d (cleanSelectStreams d rep2 sel)
      (streamCount rep2 (cleanSelectStreams d rep2 sel)) (d.streamsOrdered rep2) 0
      (initLoopState d w2 rep2 (cleanSelectStreams d rep2 sel))
    generalize replicationLoop d (cleanSelectStreams d rep2 sel)
      (streamCount rep2 (cleanSelectStreams d rep2 sel)) 0 (d.streamsOrdered rep2)
      (initLoopState d w2 rep2 (cleanSelectStreams d rep2 sel)) = out at hall hret ⊢
    obtain ⟨st, ex⟩ := out
    cases ex with
    | done => exact ⟨rfl, by simp [finishRun]⟩
    | brk => exact ⟨rfl, by simp [finishRun]⟩
    | ret e =>
      obtain ⟨_, r, hr, hobj⟩ := hret e rfl
      exact absurd hobj (hall r hr)
  · intro r hr
    have h1 : r.1 ∈ (runLoaded d w2 rep2 sel).reached.map Prod.fst :=
      List.mem_map.2 ⟨r, hr, rfl⟩
    exact (List.mem_filter.1 ((runLoaded_reached_initial d w2 rep2 sel).subset h1)).2
  · intro cnt i name st hint hsel
    have hs2 : (decide (0 < (cleanSelectStreams d rep2 sel).length) &&
        !IsMatched d (cleanSelectStreams d rep2 sel) name) = true := by
      unfold passesSelection at hsel
      cases hX : (decide (0 < (cleanSelectStreams d rep2 sel).length) &&
        !IsMatched d (cleanSelectStreams d rep2 sel) name)
      · rw [hX] at hsel; exact absurd hsel (by decide)
      · rfl
    dsimp only [streamStep]
    rw [if_neg (by rw [hint]; simp), if_pos hs2]
    exact ⟨rfl, rfl⟩

/-- C18 at concrete runs: A fails, C succeeds, B has no object: the returned
error is the missing-object error although one failure and one success were
gathered, and there is no summary; with B left unselected nothing aborts. -/
theorem missing_object_error_alone_witness :
    (((∃ r ∈ (runReplication (demoDeps specNoObjectLate ["A"] none) 0 "replication.yaml"
            []).reached, r.2.Object = "") →
          (runReplication (demoDeps specNoObjectLate ["A"] none) 0 "replication.yaml" []).err
            = some missingObject ∧
          (∀ es, (runReplication (demoDeps specNoObjectLate ["A"] none) 0 "replication.yaml"
            []).err ≠ some (.group es)) ∧
          (∀ a b, LogLine.completed a b ∉
            (runReplication (demoDeps specNoObjectLate ["A"] none) 0 "replication.yaml"
              []).log)) ∧
        ((∀ r ∈ (runReplication (demoDeps specNoObjectLate ["A"] none) 0 "replication.yaml"
            []).reached, r.2.Object ≠ "") →
          (runReplication (demoDeps specNoObjectLate ["A"] none) 0 "replication.yaml" []).err =
            (ErrorGroup.mk (runReplication (demoDeps specNoObjectLate ["A"] none) 0
              "replication.yaml" []).failures).Err ∧
          LogLine.completed
              (runReplication (demoDeps specNoObjectLate ["A"] none) 0 "replication.yaml"
                []).succcess
              (runReplication (demoDeps specNoObjectLate ["A"] none) 0 "replication.yaml"
                []).failures.length ∈
            (runReplication (demoDeps specNoObjectLate ["A"] none) 0 "replication.yaml"
              []).log) ∧
        (∀ r ∈ (runReplication (demoDeps specNoObjectLate ["A"] none) 0 "replication.yaml"
            []).reached,
          passesSelection (demoDeps specNoObjectLate ["A"] none)
            (cleanSelectStreams (demoDeps specNoObjectLate ["A"] none) specNoObjectLate [])
            r.1 = true) ∧
        (∀ (cnt i : Nat) (name : String) (st : LoopState Nat),
          (demoDeps specNoObjectLate ["A"] none).interrupted st.world = false →
          passesSelection (demoDeps specNoObjectLate ["A"] none)
            (cleanSelectStreams (demoDeps specNoObjectLate ["A"] none) specNoObjectLate [])
            name = false →
          (streamStep (demoDeps specNoObjectLate ["A"] none)
            (cleanSelectStreams (demoDeps specNoObjectLate ["A"] none) specNoObjectLate [])
            cnt i name st).2 = none ∧
          (streamStep (demoDeps specNoObjectLate ["A"] none)
            (cleanSelectStreams (demoDeps specNoObjectLate ["A"] none) specNoObjectLate [])
            cnt i name st).1.reached = st.reached)) ∧
      ((runReplication (demoDeps specNoObjectLate ["A"] none) 0 "replication.yaml"
          []).reached.map Prod.fst = ["A", "C", "B"] ∧
        (runReplication (demoDeps specNoObjectLate ["A"] none) 0 "replication.yaml"
          []).failures.length = 1 ∧
        (runReplication (demoDeps specNoObjectLate ["A"] none) 0 "replication.yaml"
          []).succcess = 1) ∧
      ((runReplication (demoDeps specNoObjectLate [] none) 0 "replication.yaml"
          ["A", "C", "D"]).err.isNone = true ∧
        (runReplication (demoDeps specNoObjectLate [] none) 0 "replication.yaml"
          ["A", "C", "D"]).trace.map (fun t => t.name) = ["A", "C", "D"]) :=
  ⟨missing_object_error_alone (demoDeps specNoObjectLate ["A"] none) 0 0 0 "replication.yaml"
     [] specNoObjectLate specNoObjectLate rfl rfl,
   by decide, by decide⟩

end Claims2

/-! ## More claims on `parsePayload` -/

section Payload2

/-- A payload of white space only is trimmed to the empty string. -/
theorem trimSpace_blank (payload : String) (h : ∀ c ∈ payload.toList, isSpace c = true) :
    trimSpace payload = "" := by
  unfold trimSpace
  have h1 : payload.toList.dropWhile isSpace = [] := List.dropWhile_eq_nil_iff.2 h
  rw [h1]
  rfl

/-- C15: for a payload that is not blank, `parsePayload` takes the result of
the strict JSON parse when that parse accepts the payload, whatever the YAML
parse would say; when the JSON parse rejects it and the YAML parse accepts it,
the result is the YAML mapping, provided no key contains a colon or no
validation is asked for; when both reject it, `parsePayload` returns an
error. -/
theorem parsePayload_strict_then_relaxed (p : Parsers) (payload : String) (validate : Bool)
    (hne : trimSpace payload ≠ "") :
    ((p.unmarshalMap (trimSpace payload)).2 = none →
        parsePayload p payload validate = ((p.unmarshalMap (trimSpace payload)).1, none)) ∧
      ((p.unmarshalMap (trimSpace payload)).2 ≠ none →
        (p.yamlUnmarshal (trimSpace payload) (p.unmarshalMap (trimSpace payload)).1).2 = none →
        (validate = false ∨ ∀ k ∈ GoMap.keys
          (p.yamlUnmarshal (trimSpace payload) (p.unmarshalMap (trimSpace payload)).1).1,
            hasColon k = false) →
        parsePayload p payload validate =
          ((p.yamlUnmarshal (trimSpace payload) (p.unmarshalMap (trimSpace payload)).1).1,
            none)) ∧
      ((p.unmarshalMap (trimSpace payload)).2 ≠ none →
        (p.yamlUnmarshal (trimSpace payload) (p.unmarshalMap (trimSpace payload)).1).2 ≠ none →
        (parsePayload p payload validate).2.isSome = true) := by
  refine ⟨?_, ?_, ?_⟩
  · intro hj
    simp [parsePayload, hne, hj]
  · intro hj hy hk
    cases hj2 : (p.unmarshalMap (trimSpace payload)).2 with
    | none => exact absurd hj2 hj
    | some e =>
      rcases hk with hv | hk
      · subst hv
        simp [parsePayload, hne, hj2, hy]
      · have hf : (GoMap.keys (p.yamlUnmarshal (trimSpace payload)
            (p.unmarshalMap (trimSpace payload)).1).1).find? hasColon = none := by
          rw [List.find?_eq_none]
          intro k hkm
          rw [hk k hkm]
          decide
        cases validate <;> simp [parsePayload, hne, hj2, hy, hf]
  · intro hj hy
    cases hj2 : (p.unmarshalMap (trimSpace payload)).2 with
    | none => exact absurd hj2 hj
    | some e =>
      cases hy2 : (p.yamlUnmarshal (trimSpace payload)
          (p.unmarshalMap (trimSpace payload)).1).2 with
      | none => exact absurd hy2 hy
      | some e2 => simp [parsePayload, hne, hj2, hy2]

/-- C15 on the payloads of `TestOptions`: the JSON payload is answered by the
JSON parse, the inline map with a space by the YAML parse, and `.`, which
both parsers reject, gives an error. -/
theorem parsePayload_strict_then_relaxed_witness :
    (trimSpace "\x7buse_bulk: false\x7d" ≠ "") ∧
      (((demoParsers.unmarshalMap (trimSpace "\x7buse_bulk: false\x7d")).2 = none →
          parsePayload demoParsers "\x7buse_bulk: false\x7d" true =
            ((demoParsers.unmarshalMap (trimSpace "\x7buse_bulk: false\x7d")).1, none)) ∧
        ((demoParsers.unmarshalMap (trimSpace "\x7buse_bulk: false\x7d")).2 ≠ none →
          (demoParsers.yamlUnmarshal (trimSpace "\x7buse_bulk: false\x7d")
            (demoParsers.unmarshalMap (trimSpace "\x7buse_bulk: false\x7d")).1).2 = none →
          (true = false ∨ ∀ k ∈ GoMap.keys
            (demoParsers.yamlUnmarshal (trimSpace "\x7buse_bulk: false\x7d")
              (demoParsers.unmarshalMap (trimSpace "\x7buse_bulk: false\x7d")).1).1,
              hasColon k = false) →
          parsePayload demoParsers "\x7buse_bulk: false\x7d" true =
            ((demoParsers.yamlUnmarshal (trimSpace "\x7buse_bulk: false\x7d")
              (demoParsers.unmarshalMap (trimSpace "\x7buse_bulk: false\x7d")).1).1, none)) ∧
        ((demoParsers.unmarshalMap (trimSpace "\x7buse_bulk: false\x7d")).2 ≠ none →
          (demoParsers.yamlUnmarshal (trimSpace "\x7buse_bulk: false\x7d")
            (demoParsers.unmarshalMap (trimSpace "\x7buse_bulk: false\x7d")).1).2 ≠ none →
          (parsePayload demoParsers "\x7buse_bulk: false\x7d" true).2.isSome = true)) ∧
      (parsePayload demoParsers "\x7b\"use_bulk\":false\x7d" true).1 =
        some [("use_bulk", .bool false)] ∧
      (parsePayload demoParsers "\x7b\"use_bulk\":false\x7d" true).2.isNone = true ∧
      (parsePayload demoParsers "\x7buse_bulk: false\x7d" true).1 =
        some [("use_bulk", .bool false)] ∧
      (parsePayload demoParsers "use_bulk: false" true).1 = some [("use_bulk", .bool false)] ∧
      (parsePayload demoParsers "." true).2.isSome = true :=
  ⟨by decide, parsePayload_strict_then_relaxed demoParsers "\x7buse_bulk: false\x7d" true
     (by decide), by decide, by decide, by decide, by decide, by decide⟩

/-- C16: for a payload that is empty or made of white space only, and for
both values of `validate`, `parsePayload` returns the empty, non-nil mapping
and no error, whatever the two parsers are: none of them is consulted. -/
theorem parsePayload_blank (p : Parsers) (payload : String) (validate : Bool)
    (h : ∀ c ∈ payload.toList, isSpace c = true) :
    parsePayload p payload validate = (some [], none) := by
  unfold parsePayload
  simp [trimSpace_blank payload h]

/-- C16 on the empty payload of `TestOptions` and on a payload of blanks, with
the parsers of the examples. -/
theorem parsePayload_blank_witness :
    ((∀ c ∈ (" \t\n " : String).toList, isSpace c = true) ∧
        parsePayload demoParsers " \t\n " true = (some [], none)) ∧
      parsePayload demoParsers "" true = (some [], none) ∧
      parsePayload demoParsers "" false = (some [], none) ∧
      (parsePayload demoParsers "" true).1 ≠ none :=
  ⟨⟨by decide, parsePayload_blank demoParsers " \t\n " true (by decide)⟩,
   parsePayload_blank demoParsers "" true (by decide),
   parsePayload_blank demoParsers "" false (by decide),
   by decide⟩

end Payload2

/-! ## The iteration count of `processRun` -/

section Count

variable {σ : Type} (d : Deps σ)

/-- One iteration adds one entry to the record and leaves the counters. -/
theorem runOnce_frame (cfgPath taskCfgStr : String) (sel : List String)
    (st : ProcessState σ) :
    (runOnce d cfgPath taskCfgStr sel st).1.itNumber = st.itNumber ∧
      (runOnce d cfgPath taskCfgStr sel st).1.sleeps = st.sleeps ∧
      (runOnce d cfgPath taskCfgStr sel st).1.iterations.length =
        st.iterations.length + 1 := by
  unfold runOnce
  split_ifs <;> (try dsimp only) <;> (try split) <;> (try dsimp only) <;> (try split) <;> simp

/-- The loop with a finite count and runs that all succeed: started at
iteration number `N - k`, it makes `k + 1` runs and `k` sleeps, then returns
without error. -/
theorem processRunLoop_count (cfgPath taskCfgStr : String) (sel : List String) (N : Int)
    (hsucc : ∀ st, (runOnce d cfgPath taskCfgStr sel st).2 = none) :
    ∀ (k fuel : Nat) (st : ProcessState σ), st.itNumber + k = N → 0 < st.itNumber →
      k < fuel →
      (processRunLoop d cfgPath taskCfgStr sel N fuel st).returned = true ∧
      (processRunLoop d cfgPath taskCfgStr sel N fuel st).err = none ∧
      (processRunLoop d cfgPath taskCfgStr sel N fuel st).final.iterations.length =
        st.iterations.length + k + 1 ∧
      (processRunLoop d cfgPath taskCfgStr sel N fuel st).final.sleeps = st.sleeps + k := by
  intro k
  induction k with
  | zero =>
    intro fuel st hN hpos hfuel
    obtain ⟨f, rfl⟩ : ∃ f, fuel = f + 1 := ⟨fuel - 1, by omega⟩
    obtain ⟨h1, h2, h3⟩ := runOnce_frame d cfgPath taskCfgStr sel st
    rw [processRunLoop]
    dsimp only
    rw [hsucc st]
    dsimp only
    have hc : 0 < N ∧ N ≤ (runOnce d cfgPath taskCfgStr sel st).1.itNumber := by
      rw [h1]; constructor <;> omega
    rw [if_pos hc]
    exact ⟨rfl, rfl, by simpa using h3, by simpa using h2⟩
  | succ k ih =>
    intro fuel st hN hpos hfuel
    obtain ⟨f, rfl⟩ : ∃ f, fuel = f + 1 := ⟨fuel - 1, by omega⟩
    obtain ⟨h1, h2, h3⟩ := runOnce_frame d cfgPath taskCfgStr sel st
    rw [processRunLoop]
    dsimp only
    rw [hsucc st]
    dsimp only
    have hc : ¬(0 < N ∧ N ≤ (runOnce d cfgPath taskCfgStr sel st).1.itNumber) := by
      rw [h1]; push_cast at hN; omega
    rw [if_neg hc]
    have := ih f
      { (runOnce d cfgPath taskCfgStr sel st).1 with
        itNumber := (runOnce d cfgPath taskCfgStr sel st).1.itNumber + 1,
        world := d.sleep (runOnce d cfgPath taskCfgStr sel st).1.world,
        sleeps := (runOnce d cfgPath taskCfgStr sel st).1.sleeps + 1 }
      (by dsimp only; rw [h1]; push_cast at hN; omega)
      (by dsimp only; rw [h1]; omega) (by omega)
    obtain ⟨r1, r2, r3, r4⟩ := this
    refine ⟨r1, r2, ?_, ?_⟩
    · rw [r3]; dsimp only; rw [h3]; omega
    · rw [r4]; dsimp only; rw [h2]; omega

theorem applySourceOptions_iterate (f : FlagDeps) (l : Locals) (v : Val) :
    (applySourceOptions f l v).1.iterate = l.iterate := by
  unfold applySourceOptions
  dsimp only
  split
  · rfl
  · split <;> rfl

theorem applyTargetOptions_iterate (f : FlagDeps) (l : Locals) (v : Val) :
    (applyTargetOptions f l v).1.iterate = l.iterate := by
  unfold applyTargetOptions
  dsimp only
  split
  · rfl
  · split <;> rfl

theorem applyEnv_iterate (f : FlagDeps) (l : Locals) (v : Val) :
    (applyEnv f l v).1.iterate = l.iterate := by
  unfold applyEnv
  dsimp only
  split
  · rfl
  · split <;> rfl

/-- Flags other than `iterate` leave the iteration count as it is. -/
theorem applyFlag_iterate_other (f : FlagDeps) (vals : List (String × Val)) (l : Locals)
    (k : String) (v : Val) (hk : k ≠ "iterate") :
    (applyFlag f vals l k v).1.iterate = l.iterate := by
  unfold applyFlag
  by_cases h : k = "replication"
  · rw [if_pos h]
  rw [if_neg h]
  clear h
  by_cases h : k = "config"
  · rw [if_pos h]
  rw [if_neg h]
  clear h
  by_cases h : k = "src-conn"
  · rw [if_pos h]; rfl
  rw [if_neg h]
  clear h
  by_cases h : k = "src-stream" ∨ k = "src-table" ∨ k = "src-sql" ∨ k = "src-file"
  · rw [if_pos h]; rfl
  rw [if_neg h]
  clear h
  by_cases h : k = "src-options"
  · rw [if_pos h]; exact applySourceOptions_iterate f l v
  rw [if_neg h]
  clear h
  by_cases h : k = "tgt-conn"
  · rw [if_pos h]; rfl
  rw [if_neg h]
  clear h
  by_cases h : k = "primary-key"
  · rw [if_pos h]; rfl
  rw [if_neg h]
  clear h
  by_cases h : k = "update-key"
  · rw [if_pos h]; rfl
  rw [if_neg h]
  clear h
  by_cases h : k = "limit"
  · rw [if_pos h]; rfl
  rw [if_neg h]
  clear h
  by_cases h : k = "iterate"
  · exact absurd h hk
  rw [if_neg h]
  clear h
  by_cases h : k = "range"
  · rw [if_pos h]; rfl
  rw [if_neg h]
  clear h
  by_cases h : k = "tgt-object" ∨ k = "tgt-table" ∨ k = "tgt-file"
  · rw [if_pos h]; rfl
  rw [if_neg h]
  clear h
  by_cases h : k = "tgt-options"
  · rw [if_pos h]; exact applyTargetOptions_iterate f l v
  rw [if_neg h]
  clear h
  by_cases h : k = "env"
  · rw [if_pos h]; exact applyEnv_iterate f l v
  rw [if_neg h]
  clear h
  by_cases h : k = "stdout"
  · rw [if_pos h]; rfl
  rw [if_neg h]
  clear h
  by_cases h : k = "mode"
  · rw [if_pos h]; rfl
  rw [if_neg h]
  clear h
  by_cases h : k = "select"
  · rw [if_pos h]; rfl
  rw [if_neg h]
  clear h
  by_cases h : k = "streams"
  · rw [if_pos h]
  rw [if_neg h]
  clear h
  by_cases h : k = "debug"
  · rw [if_pos h]; rfl
  rw [if_neg h]
  clear h
  by_cases h : k = "examples"
  · rw [if_pos h]
  rw [if_neg h]

/-- Without an `iterate` flag the count keeps its initial value. -/
theorem applyFlags_iterate_absent (f : FlagDeps) (vals : List (String × Val)) :
    ∀ (rest : List (String × Val)) (l : Locals), (∀ kv ∈ rest, kv.1 ≠ "iterate") →
      (applyFlags f vals rest l).1.iterate = l.iterate := by
  intro rest
  induction rest with
  | nil => intro l _; rfl
  | cons kv rest ih =>
    intro l h
    have h1 := applyFlag_iterate_other f vals l kv.1 kv.2 (h kv (List.mem_cons_self _ _))
    rw [applyFlags]
    rcases hs : applyFlag f vals l kv.1 kv.2 with ⟨l1, _ | e⟩
    · rw [hs] at h1
      dsimp only at h1 ⊢
      rw [ih l1 (fun x hx => h x (List.mem_cons_of_mem _ hx)), h1]
    · rw [hs] at h1
      exact h1

theorem applyFlag_iterate (f : FlagDeps) (vals : List (String × Val)) (l : Locals) (v : Val) :
    applyFlag f vals l "iterate" v = applyIterate f l v := by
  rfl

/-- The iteration count is `-1` only through the value "infinite". -/
theorem applyFlags_iterate_infinite (f : FlagDeps) (vals : List (String × Val)) :
    ∀ (rest : List (String × Val)) (l : Locals),
      (applyFlags f vals rest l).1.iterate = -1 →
      l.iterate = -1 ∨ ∃ v, ("iterate", v) ∈ rest ∧ f.castToString v = "infinite" := by
  intro rest
  induction rest with
  | nil => intro l h; exact Or.inl h
  | cons kv rest ih =>
    intro l h
    have hstep : (applyFlag f vals l kv.1 kv.2).1.iterate = -1 →
        l.iterate = -1 ∨ (kv.1 = "iterate" ∧ f.castToString kv.2 = "infinite") := by
      by_cases hk : kv.1 = "iterate"
      · have he : applyFlag f vals l kv.1 kv.2 = applyIterate f l kv.2 := by
          rw [hk]; rfl
        rw [he]
        unfold applyIterate
        split_ifs with h1 h2
        · exact fun _ => Or.inr ⟨hk, h1⟩
        · intro h3
          dsimp only at h3
          omega
        · exact fun h3 => Or.inl h3
      · rw [applyFlag_iterate_other f vals l kv.1 kv.2 hk]
        exact fun h3 => Or.inl h3
    rw [applyFlags] at h
    rcases hs : applyFlag f vals l kv.1 kv.2 with ⟨l1, _ | e⟩
    · rw [hs] at h hstep
      dsimp only at h hstep
      rcases ih l1 h with h4 | ⟨v, hv, hinf⟩
      · rcases hstep h4 with h5 | ⟨h5, h6⟩
        · exact Or.inl h5
        · exact Or.inr ⟨kv.2, by rw [← h5]; exact List.mem_cons_self _ _, h6⟩
      · exact Or.inr ⟨v, List.mem_cons_of_mem _ hv, hinf⟩
    · rw [hs] at h hstep
      dsimp only at h hstep
      rcases hstep h with h5 | ⟨h5, h6⟩
      · exact Or.inl h5
      · exact Or.inr ⟨kv.2, by rw [← h5]; exact List.mem_cons_self _ _, h6⟩

/-- The iteration count stays `-1` or positive. -/
theorem applyFlags_iterate_range (f : FlagDeps) (vals : List (String × Val)) :
    ∀ (rest : List (String × Val)) (l : Locals), (l.iterate = -1 ∨ 0 < l.iterate) →
      (applyFlags f vals rest l).1.iterate = -1 ∨ 0 < (applyFlags f vals rest l).1.iterate := by
  intro rest
  induction rest with
  | nil => intro l h; exact h
  | cons kv rest ih =>
    intro l h
    have hstep : (applyFlag f vals l kv.1 kv.2).1.iterate = -1 ∨
        0 < (applyFlag f vals l kv.1 kv.2).1.iterate := by
      by_cases hk : kv.1 = "iterate"
      · have he : applyFlag f vals l kv.1 kv.2 = applyIterate f l kv.2 := by
          rw [hk]; rfl
        rw [he]
        unfold applyIterate
        split_ifs with h1 h2
        · exact Or.inl rfl
        · exact Or.inr h2
        · exact h
      · rw [applyFlag_iterate_other f vals l kv.1 kv.2 hk]
        exact h
    rw [applyFlags]
    rcases hs : applyFlag f vals l kv.1 kv.2 with ⟨l1, _ | e⟩
    · rw [hs] at hstep
      exact ih l1 hstep
    · rw [hs] at hstep
      exact hstep

/-- A flag whose case returns an error makes the loop over the flags return
an error. -/
theorem applyFlags_error_of_mem (f : FlagDeps) (vals : List (String × Val)) (k : String)
    (v : Val) (hbad : ∀ l, (applyFlag f vals l k v).2.isSome = true) :
    ∀ (rest : List (String × Val)) (l : Locals), (k, v) ∈ rest →
      (applyFlags f vals rest l).2.isSome = true := by
  intro rest
  induction rest with
  | nil => intro l h; exact absurd h (List.not_mem_nil _)
  | cons kv rest ih =>
    intro l h
    rw [applyFlags]
    rcases hs : applyFlag f vals l kv.1 kv.2 with ⟨l1, _ | e⟩
    · dsimp only
      rcases List.mem_cons.1 h with h1 | h1
      · have := hbad l
        rw [← h1] at hs
        rw [hs] at this
        simp at this
      · exact ih l1 h1
    · rfl

/-- One iteration of the loop whose run returns no error is the run of the
contract: it records the run, takes its world and its configuration, and gives
no error. -/
theorem runOnce_specRun (cfgPath taskCfgStr : String) (sel : List String)
    (st : ProcessState σ) :
    (specRun d cfgPath taskCfgStr sel st.world st.cfg).1.ranOk = true →
      runOnce d cfgPath taskCfgStr sel st =
        ({ st with world := (specRun d cfgPath taskCfgStr sel st.world st.cfg).2.1,
                   cfg := (specRun d cfgPath taskCfgStr sel st.world st.cfg).2.2,
                   iterations := st.iterations ++
                     [(specRun d cfgPath taskCfgStr sel st.world st.cfg).1] }, none) := by
  unfold runOnce specRun
  by_cases hp : cfgPath ≠ ""
  · rw [if_pos hp, if_pos hp]
    dsimp only
    cases hr : (runReplication d st.world cfgPath sel).err with
    | none => intro _; rfl
    | some e => intro h; simp [Iteration.ranOk, hr] at h
  · rw [if_neg hp, if_neg hp]
    by_cases ht : taskCfgStr ≠ ""
    · rw [if_pos ht, if_pos ht]
      dsimp only
      cases hu : (d.unmarshal st.world st.cfg taskCfgStr).2 with
      | error e => intro h; simp [Iteration.ranOk] at h
      | ok c =>
        dsimp only
        cases hr : (d.runTask (d.unmarshal st.world st.cfg taskCfgStr).1 c none).2.2 with
        | none => intro _; rfl
        | some e => intro h; simp [Iteration.ranOk] at h
    · rw [if_neg ht, if_neg ht]
      dsimp only
      cases hr : (d.runTask st.world st.cfg none).2.2 with
      | none => intro _; rfl
      | some e => intro h; simp [Iteration.ranOk] at h

/-- The loop with a finite count, started at iteration number `N - k`, when
the `k + 1` runs of the contract return no error: it makes exactly these runs,
with `k` sleeps, and returns without error. -/
theorem processRunLoop_specRuns (cfgPath taskCfgStr : String) (sel : List String) (N : Int) :
    ∀ (k fuel : Nat) (st : ProcessState σ), st.itNumber + k = N → 0 < st.itNumber →
      k < fuel →
      (∀ it ∈ specRuns d cfgPath taskCfgStr sel (k + 1) st.world st.cfg, it.ranOk = true) →
      (processRunLoop d cfgPath taskCfgStr sel N fuel st).returned = true ∧
      (processRunLoop d cfgPath taskCfgStr sel N fuel st).err = none ∧
      (processRunLoop d cfgPath taskCfgStr sel N fuel st).final.iterations =
        st.iterations ++ specRuns d cfgPath taskCfgStr sel (k + 1) st.world st.cfg ∧
      (processRunLoop d cfgPath taskCfgStr sel N fuel st).final.sleeps = st.sleeps + k ∧
      (processRunLoop d cfgPath taskCfgStr sel N fuel st).final.world =
        specWorld d cfgPath taskCfgStr sel (k + 1) st.world st.cfg := by
  intro k
  induction k with
  | zero =>
    intro fuel st hN hpos hfuel hok
    obtain ⟨f, rfl⟩ : ∃ f, fuel = f + 1 := ⟨fuel - 1, by omega⟩
    have h1 := runOnce_specRun d cfgPath taskCfgStr sel st
      (hok _ (by rw [specRuns]; exact List.mem_cons_self _ _))
    rw [processRunLoop]
    dsimp only
    rw [h1]
    dsimp only
    have hc : 0 < N ∧ N ≤ st.itNumber := by constructor <;> omega
    rw [if_pos hc]
    exact ⟨rfl, rfl, rfl, rfl, rfl⟩
  | succ k ih =>
    intro fuel st hN hpos hfuel hok
    obtain ⟨f, rfl⟩ : ∃ f, fuel = f + 1 := ⟨fuel - 1, by omega⟩
    have h1 := runOnce_specRun d cfgPath taskCfgStr sel st
      (hok _ (by rw [specRuns]; exact List.mem_cons_self _ _))
    rw [processRunLoop]
    dsimp only
    rw [h1]
    dsimp only
    have hc : ¬(0 < N ∧ N ≤ st.itNumber) := by push_cast at hN; omega
    rw [if_neg hc]
    have := ih f
      { st with
        world := d.sleep (specRun d cfgPath taskCfgStr sel st.world st.cfg).2.1,
        cfg := (specRun d cfgPath taskCfgStr sel st.world st.cfg).2.2,
        iterations := st.iterations ++ [(specRun d cfgPath taskCfgStr sel st.world st.cfg).1],
        itNumber := st.itNumber + 1,
        sleeps := st.sleeps + 1 }
      (by dsimp only; push_cast at hN; omega)
      (by dsimp only; omega) (by omega)
      (by
        dsimp only
        intro it hit
        exact hok it (by rw [specRuns]; exact List.mem_cons_of_mem _ hit))
    obtain ⟨r1, r2, r3, r4, r5⟩ := this
    refine ⟨r1, r2, ?_, ?_, ?_⟩
    · rw [r3]
      dsimp only
      rw [List.append_assoc]
      rfl
    · rw [r4]; dsimp only; omega
    · rw [r5]
      rfl

/-- In task mode a run that returned no error made one call of `runTask`. -/
theorem specRun_task_transfers (taskCfgStr : String) (sel : List String) (w : σ)
    (cfg : Config) :
    (specRun d "" taskCfgStr sel w cfg).1.ranOk = true →
      (specRun d "" taskCfgStr sel w cfg).1.transfers = 1 := by
  unfold specRun
  rw [if_neg (by simp)]
  by_cases ht : taskCfgStr ≠ ""
  · rw [if_pos ht]
    cases hu : (d.unmarshal w cfg taskCfgStr).2 with
    | error e => intro h; simp [Iteration.ranOk] at h
    | ok c => intro _; rfl
  · rw [if_neg ht]
    intro _; rfl

/-- In task mode runs that returned no error made one call of `runTask` each. -/
theorem specRuns_task_transfers (taskCfgStr : String) (sel : List String) :
    ∀ (n : Nat) (w : σ) (cfg : Config),
      (∀ it ∈ specRuns d "" taskCfgStr sel n w cfg, it.ranOk = true) →
      (specRuns d "" taskCfgStr sel n w cfg).map Iteration.transfers = List.replicate n 1 := by
  intro n
  induction n with
  | zero => intro w cfg _; rfl
  | succ n ih =>
    intro w cfg hok
    rw [specRuns, List.map_cons, List.replicate_succ,
      specRun_task_transfers d taskCfgStr sel w cfg
        (hok _ (by rw [specRuns]; exact List.mem_cons_self _ _)),
      ih _ _ (fun it hit => hok it (by rw [specRuns]; exact List.mem_cons_of_mem _ hit))]

/-- In replication mode every run is a call of `runReplication`. -/
theorem specRuns_replication (cfgPath taskCfgStr : String) (sel : List String)
    (hp : cfgPath ≠ "") :
    ∀ (n : Nat) (w : σ) (cfg : Config),
      ∀ it ∈ specRuns d cfgPath taskCfgStr sel n w cfg,
        ∃ v, it = .replication (runReplication d v cfgPath sel) := by
  intro n
  induction n with
  | zero => intro w cfg it hit; exact absurd hit (List.not_mem_nil _)
  | succ n ih =>
    intro w cfg it hit
    rw [specRuns] at hit
    rcases List.mem_cons.1 hit with h | h
    · refine ⟨w, ?_⟩
      rw [h]
      unfold specRun
      rw [if_pos hp]
    · exact ih _ _ it h

theorem specRuns_length (cfgPath taskCfgStr : String) (sel : List String) :
    ∀ (n : Nat) (w : σ) (cfg : Config),
      (specRuns d cfgPath taskCfgStr sel n w cfg).length = n := by
  intro n
  induction n with
  | zero => intro w cfg; rfl
  | succ n ih => intro w cfg; rw [specRuns, List.length_cons, ih]

/-- C13 (iteration count): when the flags are read without error, no example
listing is asked for, replication and task configuration are not both given,
the count read from the flags is the positive number `N`, and each of the `N`
runs, taken in turn from the world the one before left, returns no error (in
task mode with a task configuration string: parses it and returns no error),
`processRun` returns without error, the loop being given at least `N`
iterations, and what it did is exactly these `N` runs: `N` calls of
`runReplication` in replication mode, `N` calls of `runTask` in task mode,
none of them with an error, with `N - 1` sleeps, one between two runs.  When
no `iterate` flag is given, `N` is 1 and the one run is made without sleep; an
`iterate` flag whose value converts to a positive integer sets the count to
that integer. -/
theorem processRun_iteration_count (d : Deps σ) (f : FlagDeps) (vals : List (String × Val))
    (fuel : Nat) (w : σ) (N : Nat)
    (hflags : (readFlags f vals).2 = none)
    (hex : (readFlags f vals).1.showExamples = false)
    (hone : ¬((readFlags f vals).1.replicationCfgPath ≠ "" ∧
      (readFlags f vals).1.taskCfgStr ≠ ""))
    (hN : (readFlags f vals).1.iterate = (N : Int)) (hpos : 0 < N)
    (hsucc : ∀ it ∈ specRuns d (readFlags f vals).1.replicationCfgPath
      (readFlags f vals).1.taskCfgStr (readFlags f vals).1.selectStreams N w
      (readFlags f vals).1.cfg, it.ranOk = true)
    (hfuel : N ≤ fuel) :
    ((processRun d f vals fuel w).returned = true ∧
        (processRun d f vals fuel w).err = none ∧
        (processRun d f vals fuel w).final.iterations =
          specRuns d (readFlags f vals).1.replicationCfgPath (readFlags f vals).1.taskCfgStr
            (readFlags f vals).1.selectStreams N w (readFlags f vals).1.cfg ∧
        (processRun d f vals fuel w).final.iterations.length = N ∧
        (∀ it ∈ (processRun d f vals fuel w).final.iterations, it.ranOk = true) ∧
        ((readFlags f vals).1.replicationCfgPath ≠ "" →
          ∀ it ∈ (processRun d f vals fuel w).final.iterations,
            ∃ v, it = .replication (runReplication d v
              (readFlags f vals).1.replicationCfgPath (readFlags f vals).1.selectStreams)) ∧
        ((readFlags f vals).1.replicationCfgPath = "" →
          (processRun d f vals fuel w).final.iterations.map Iteration.transfers =
            List.replicate N 1) ∧
        (processRun d f vals fuel w).final.sleeps = N - 1 ∧
        (processRun d f vals fuel w).final.world =
          specWorld d (readFlags f vals).1.replicationCfgPath (readFlags f vals).1.taskCfgStr
            (readFlags f vals).1.selectStreams N w (readFlags f vals).1.cfg) ∧
      ((∀ kv ∈ vals, kv.1 ≠ "iterate") →
        N = 1 ∧
        (processRun d f vals fuel w).final.iterations =
          [(specRun d (readFlags f vals).1.replicationCfgPath (readFlags f vals).1.taskCfgStr
            (readFlags f vals).1.selectStreams w (readFlags f vals).1.cfg).1] ∧
        (processRun d f vals fuel w).final.sleeps = 0) ∧
      (∀ (l : Locals) (v : Val), f.castToString v ≠ "infinite" → 0 < f.castToInt v →
        applyFlag f vals l "iterate" v = ({ l with iterate := f.castToInt v }, none)) := by
  have hmain : (processRun d f vals fuel w).returned = true ∧
      (processRun d f vals fuel w).err = none ∧
      (processRun d f vals fuel w).final.iterations =
        specRuns d (readFlags f vals).1.replicationCfgPath (readFlags f vals).1.taskCfgStr
          (readFlags f vals).1.selectStreams N w (readFlags f vals).1.cfg ∧
      (processRun d f vals fuel w).final.sleeps = N - 1 ∧
      (processRun d f vals fuel w).final.world =
        specWorld d (readFlags f vals).1.replicationCfgPath (readFlags f vals).1.taskCfgStr
          (readFlags f vals).1.selectStreams N w (readFlags f vals).1.cfg := by
    obtain ⟨k, rfl⟩ : ∃ k, N = k + 1 := ⟨N - 1, by omega⟩
    unfold processRun
    dsimp only
    rw [hflags]
    dsimp only
    rw [hex]
    rw [if_neg (by simp), if_neg hone]
    have h := processRunLoop_specRuns d (readFlags f vals).1.replicationCfgPath
      (readFlags f vals).1.taskCfgStr (readFlags f vals).1.selectStreams
      (readFlags f vals).1.iterate k fuel
      { world := w, cfg := (readFlags f vals).1.cfg }
      (by dsimp only; rw [hN]; push_cast; omega) Int.one_pos (by omega) hsucc
    obtain ⟨h1, h2, h3, h4, h5⟩ := h
    refine ⟨h1, h2, ?_, ?_, h5⟩
    · rw [h3]; rfl
    · rw [h4]; simp
  obtain ⟨m1, m2, m3, m4, m5⟩ := hmain
  have hone1 : (∀ kv ∈ vals, kv.1 ≠ "iterate") → N = 1 := by
    intro hno
    have h := applyFlags_iterate_absent f vals vals (initLocals f) hno
    unfold readFlags at hN
    rw [h] at hN
    have h1 : ((1 : Int) = (N : Int)) := hN
    omega
  refine ⟨⟨m1, m2, m3, ?_, ?_, ?_, ?_, m4, m5⟩, ?_, ?_⟩
  · rw [m3]; exact specRuns_length d _ _ _ N w _
  · rw [m3]; exact hsucc
  · intro hp
    rw [m3]
    exact specRuns_replication d _ _ _ hp N w _
  · intro hp
    rw [m3]
    rw [hp] at hsucc ⊢
    exact specRuns_task_transfers d _ _ N w _ hsucc
  · intro hno
    have hN1 := hone1 hno
    refine ⟨hN1, ?_, ?_⟩
    · rw [m3, hN1]; rfl
    · rw [m4, hN1]
  · intro l v hinf hp
    rw [applyFlag_iterate]
    unfold applyIterate
    rw [if_neg hinf, if_pos hp]

/-- C13 at concrete runs: the replication of A, B, C with `iterate` 3 is run 3
times, each run handing A, B, C to the transfer engine, with 2 sleeps; without
an `iterate` flag it is run once, without sleep; a task with `iterate` 2 is
run twice. -/
theorem processRun_iteration_count_witness :
    ((readFlags demoFlagDeps
          [("replication", .str "replication.yaml"), ("iterate", .str "3")]).2 = none ∧
        (readFlags demoFlagDeps
          [("replication", .str "replication.yaml"), ("iterate", .str "3")]).1.iterate
            = ((3 : Nat) : Int) ∧
        (readFlags demoFlagDeps
          [("replication", .str "replication.yaml"), ("iterate", .str "3")]).1.replicationCfgPath
            = "replication.yaml") ∧
      ((processRun (demoDeps specABC [] none) demoFlagDeps
            [("replication", .str "replication.yaml"), ("iterate", .str "3")] 5 0).returned
              = true ∧
          (processRun (demoDeps specABC [] none) demoFlagDeps
            [("replication", .str "replication.yaml"), ("iterate", .str "3")] 5 0).err
              = none ∧
          (processRun (demoDeps specABC [] none) demoFlagDeps
            [("replication", .str "replication.yaml"), ("iterate", .str "3")] 5
              0).final.iterations.length = 3 ∧
          (∀ it ∈ (processRun (demoDeps specABC [] none) demoFlagDeps
            [("replication", .str "replication.yaml"), ("iterate", .str "3")] 5
              0).final.iterations, it.ranOk = true) ∧
          (processRun (demoDeps specABC [] none) demoFlagDeps
            [("replication", .str "replication.yaml"), ("iterate", .str "3")] 5
              0).final.sleeps = 3 - 1) ∧
      ((processRun (demoDeps specABC [] none) demoFlagDeps
          [("replication", .str "replication.yaml"), ("iterate", .str "3")] 5
            0).final.iterations.map Iteration.transfers = [3, 3, 3] ∧
        (processRun (demoDeps specABC [] none) demoFlagDeps
          [("replication", .str "replication.yaml"), ("iterate", .str "3")] 5
            0).final.world = 9) ∧
      ((processRun (demoDeps specABC [] none) demoFlagDeps
          [("replication", .str "replication.yaml")] 5 0).final.iterations.map
            Iteration.transfers = [3] ∧
        (processRun (demoDeps specABC [] none) demoFlagDeps
          [("replication", .str "replication.yaml")] 5 0).final.sleeps = 0 ∧
        (processRun (demoDeps specABC [] none) demoFlagDeps
          [("replication", .str "replication.yaml")] 5 0).returned = true) ∧
      ((processRun (demoDeps specABC [] none) demoFlagDeps
          [("iterate", .str "2")] 5 0).final.iterations.map Iteration.transfers = [1, 1] ∧
        (processRun (demoDeps specABC [] none) demoFlagDeps
          [("iterate", .str "2")] 5 0).final.sleeps = 1 ∧
        (processRun (demoDeps specABC [] none) demoFlagDeps
          [("iterate", .str "2")] 5 0).err.isNone = true) :=
  ⟨⟨rfl, rfl, rfl⟩,
   by
    have h := (processRun_iteration_count (demoDeps specABC [] none) demoFlagDeps
      [("replication", .str "replication.yaml"), ("iterate", .str "3")] 5 0 3
      rfl rfl (by decide) rfl (by decide) (by decide) (by decide)).1
    exact ⟨h.1, h.2.1, h.2.2.2.1, h.2.2.2.2.1, h.2.2.2.2.2.2.2.1⟩,
   by decide, by decide, by decide⟩

/-- C14 (invalid iteration count): an `iterate` flag whose value is not the
string "infinite" and does not convert to an integer above zero makes its
case return the error "invalid value for `iterate`", and `processRun` returns
an error without performing any run.  Conversely, when the flags are read,
the count is `-1` only if an `iterate` flag has the value "infinite", and it
is `-1` or positive. -/
theorem processRun_invalid_iterate (d : Deps σ) (f : FlagDeps) (vals : List (String × Val))
    (fuel : Nat) (w : σ) :
    (∀ v, ("iterate", v) ∈ vals → f.castToString v ≠ "infinite" → ¬0 < f.castToInt v →
        (∀ l, applyFlag f vals l "iterate" v = (l, some invalidIterate)) ∧
        (processRun d f vals fuel w).returned = true ∧
        (processRun d f vals fuel w).err.isSome = true ∧
        (processRun d f vals fuel w).final.iterations = [] ∧
        (processRun d f vals fuel w).final.sleeps = 0 ∧
        (processRun d f vals fuel w).final.world = w) ∧
      ((readFlags f vals).1.iterate = -1 →
        ∃ v, ("iterate", v) ∈ vals ∧ f.castToString v = "infinite") ∧
      ((readFlags f vals).1.iterate = -1 ∨ 0 < (readFlags f vals).1.iterate) := by
  refine ⟨?_, ?_, ?_⟩
  · intro v hmem hinf hpos
    have hcase : ∀ l, applyFlag f vals l "iterate" v = (l, some invalidIterate) := by
      intro l
      rw [applyFlag_iterate]
      unfold applyIterate
      rw [if_neg hinf, if_neg hpos]
    have herr : (readFlags f vals).2.isSome = true :=
      applyFlags_error_of_mem f vals "iterate" v (fun l => by rw [hcase l]; rfl) vals
        (initLocals f) hmem
    obtain ⟨e, he⟩ := Option.isSome_iff_exists.1 herr
    refine ⟨hcase, ?_⟩
    unfold processRun
    dsimp only
    rw [he]
    exact ⟨rfl, rfl, rfl, rfl, rfl⟩
  · intro h
    rcases applyFlags_iterate_infinite f vals vals (initLocals f) h with h1 | h1
    · exact absurd h1 (by show ¬((1 : Int) = -1); decide)
    · exact h1
  · exact applyFlags_iterate_range f vals vals (initLocals f) (Or.inr Int.one_pos)

/-- C14 at concrete runs: the values "0", "-1" and "abc" of `iterate` each
give an error and no run; the value "infinite" gives the count `-1`. -/
theorem processRun_invalid_iterate_witness :
    ((processRun (demoDeps specABC [] none) demoFlagDeps
          [("replication", .str "replication.yaml"), ("iterate", .str "0")] 5 0).err.isSome
            = true ∧
        (processRun (demoDeps specABC [] none) demoFlagDeps
          [("replication", .str "replication.yaml"), ("iterate", .str "0")] 5
            0).final.iterations = []) ∧
      ((processRun (demoDeps specABC [] none) demoFlagDeps
          [("iterate", .str "-1"), ("replication", .str "replication.yaml")] 5 0).err.isSome
            = true ∧
        (processRun (demoDeps specABC [] none) demoFlagDeps
          [("iterate", .str "-1"), ("replication", .str "replication.yaml")] 5
            0).final.iterations = []) ∧
      ((processRun (demoDeps specABC [] none) demoFlagDeps
          [("replication", .str "replication.yaml"), ("iterate", .str "abc")] 5 0).err.isSome
            = true ∧
        (processRun (demoDeps specABC [] none) demoFlagDeps
          [("replication", .str "replication.yaml"), ("iterate", .str "abc")] 5
            0).final.iterations = []) ∧
      (readFlags demoFlagDeps
        [("replication", .str "replication.yaml"), ("iterate", .str "infinite")]).1.iterate
          = -1 :=
  ⟨by
    have h := (processRun_invalid_iterate (demoDeps specABC [] none) demoFlagDeps
      [("replication", .str "replication.yaml"), ("iterate", .str "0")] 5 0).1 (.str "0")
      (by decide) (by decide) (by decide)
    exact ⟨h.2.2.1, h.2.2.2.1⟩,
   by
    have h := (processRun_invalid_iterate (demoDeps specABC [] none) demoFlagDeps
      [("iterate", .str "-1"), ("replication", .str "replication.yaml")] 5 0).1 (.str "-1")
      (by decide) (by decide) (by decide)
    exact ⟨h.2.2.1, h.2.2.2.1⟩,
   by
    have h := (processRun_invalid_iterate (demoDeps specABC [] none) demoFlagDeps
      [("replication", .str "replication.yaml"), ("iterate", .str "abc")] 5 0).1 (.str "abc")
      (by decide) (by decide) (by decide)
    exact ⟨h.2.2.1, h.2.2.2.1⟩,
   by decide⟩

end Count

end Sling
